import Mathlib

/-!
Shallow embedding of `detect_dip.py` (single-segment dip classification and
multi-scale dip discovery over a 1-D rational time series).

Numbers are modelled by exact rationals.  The three transcendental
floating-point functions the source calls (`math.exp`, `math.tanh`,
`math.sqrt`, and `np.std`'s square root) are abstracted into a `FloatOps`
record of rational functions; theorems quantify over it, and concrete
evaluations use an explicit instance only on computation paths whose observed
fields provably do not depend on those functions' values.

Python exceptions are modelled with `Except PyErr`: `detect_dip` raises
`ValueError` on malformed bounds, and float division by zero or `max()`/`min()`
of an empty sequence raise at exactly the places the source can raise.
-/

set_option maxHeartbeats 4000000
set_option maxRecDepth 16000

/-- Abstract model of the transcendental float functions used by the source. -/
structure FloatOps where
  exp : ℚ → ℚ
  tanh : ℚ → ℚ
  sqrt : ℚ → ℚ

/-- Python exception classes that the modelled code can raise:
`ValueError` (invalid segment bounds, `max()`/`min()` of an empty sequence)
and `ZeroDivisionError` (float division by zero). -/
inductive PyErr where
  | valueError : PyErr
  | zeroDiv : PyErr
deriving DecidableEq

/-- Stable insertion into a sorted list: `a` is placed before the first
element `b` with `le a b`.  `sortBy le` below is then a stable sort, which is
exactly the observable behaviour of Python's (stable) `sorted`/`list.sort`. -/
def insertBy {α : Type} (le : α → α → Bool) (a : α) : List α → List α
  | [] => [a]
  | b :: bs => if le a b then a :: b :: bs else b :: insertBy le a bs

/-- Stable sort (models Python `sorted` / `list.sort` with a key). -/
def sortBy {α : Type} (le : α → α → Bool) (l : List α) : List α :=
  l.foldr (insertBy le) []

/-- Ascending sort of rationals (models `sorted(v)`). -/
def sortQ (l : List ℚ) : List ℚ := sortBy (fun a b => decide (a ≤ b)) l

/-- Python `int(q)` for a float value: truncation toward zero. -/
def pyTrunc (q : ℚ) : ℤ := if q < 0 then ⌈q⌉ else ⌊q⌋

/-- `_median(v)` of the source: average of the two middle order statistics for
even length.  The source returns `float('nan')` for an empty input; that case
is modelled by the junk value `0` and is never observed on the guarded call
sites (shown where needed). -/
def pymedian (v : List ℚ) : ℚ :=
  let s := sortQ v
  let n := s.length
  if n = 0 then 0
  else if n % 2 = 1 then s.getD (n / 2) 0
  else (s.getD (n / 2 - 1) 0 + s.getD (n / 2) 0) / 2

/-- `_trimmed_mean(values, trim_fraction)` of the source. -/
def trimmed_mean (values : List ℚ) (trim_fraction : ℚ) : ℚ :=
  if values.length < 3 then
    if values.isEmpty then 0 else values.sum / values.length
  else
    let sorted_vals := sortQ values
    let trim_count := (max 1 (pyTrunc ((values.length : ℚ) * trim_fraction))).toNat
    let trimmed := (sorted_vals.drop trim_count).take (sorted_vals.length - 2 * trim_count)
    if trimmed.isEmpty then values.sum / values.length
    else trimmed.sum / trimmed.length

/-- `_mad(v, med)` of the source (the source always passes the center
explicitly at the call sites that are modelled here). -/
def mad (v : List ℚ) (med : ℚ) : ℚ :=
  if v.isEmpty then 0 else pymedian (v.map (fun x => |x - med|))

/-- `np.quantile(v, q)` with the default linear interpolation. -/
def pyquantile (v : List ℚ) (q : ℚ) : ℚ :=
  let s := sortQ v
  let h : ℚ := ((s.length : ℚ) - 1) * q
  let lo := (⌊h⌋).toNat
  let hi := (⌈h⌉).toNat
  s.getD lo 0 + (h - ⌊h⌋) * (s.getD hi 0 - s.getD lo 0)

/-- `np.std(v)` (population standard deviation); the square root goes through
the abstract `FloatOps`. -/
def pystd (ops : FloatOps) (v : List ℚ) : ℚ :=
  if v.isEmpty then 0
  else
    let m := v.sum / v.length
    ops.sqrt ((v.map (fun x => (x - m) ^ 2)).sum / v.length)

/-- Python `max(v)` (raises `ValueError` on an empty sequence, hence `Option`). -/
def pymax : List ℚ → Option ℚ
  | [] => none
  | a :: as => some (as.foldl max a)

/-- Python `min(v)` (raises `ValueError` on an empty sequence, hence `Option`). -/
def pymin : List ℚ → Option ℚ
  | [] => none
  | a :: as => some (as.foldl min a)

/-- The plateau scan of `find_local_minima`:
`j = i; while j < N-1 and x[j+1] == x[i]: j += 1`.
The fuel argument is `N - 1 - j`, so running out of fuel is exactly the
`j < N-1` exit. -/
def plateauEnd (x : List ℚ) (xi : ℚ) : ℕ → ℕ → ℕ
  | j, 0 => j
  | j, fuel + 1 => if x.getD (j + 1) 0 = xi then plateauEnd x xi (j + 1) fuel else j

/-- The maximum-update loop
`for k in range(a, b): if x[k] > acc: acc = x[k]` of `find_local_minima`. -/
def maxScan (x : List ℚ) (a b : ℕ) (init : ℚ) : ℚ :=
  (List.range' a (b - a)).foldl (fun acc kk => if x.getD kk 0 > acc then x.getD kk 0 else acc) init

/-- The candidate emitted by one iteration of the main scan of
`find_local_minima` for a plateau `[i, j]`: the plateau-midpoint minimum with
its prominence, when it qualifies (otherwise nothing). -/
def minimaAt (x : List ℚ) (N : ℕ) (min_prominence : ℚ) (proximity_range i j : ℕ) :
    List (ℕ × ℚ × ℚ) :=
  let is_min0 := (i = 0 ∨ x.getD i 0 < x.getD (i - 1) 0) ∧
    (j = N - 1 ∨ x.getD i 0 < x.getD (j + 1) 0)
  let is_min := if ¬is_min0 ∧ 0 < i ∧ j < N - 1 then
      x.getD i 0 ≤ x.getD (i - 1) 0 ∧ x.getD i 0 ≤ x.getD (j + 1) 0 ∧
        (x.getD i 0 < x.getD (i - 1) 0 ∨ x.getD i 0 < x.getD (j + 1) 0)
    else is_min0
  let min_idx := (i + j) / 2
  let left_higher := if 0 < i then x.getD (i - 1) 0 else x.getD min_idx 0
  let right_higher := if j < N - 1 then x.getD (j + 1) 0 else x.getD min_idx 0
  let left_higher := maxScan x (i - proximity_range) i left_higher
  let right_higher := maxScan x (j + 1) (min N (j + proximity_range + 1)) right_higher
  let prom := min left_higher right_higher - x.getD min_idx 0
  if is_min ∧ prom ≥ min_prominence then [(min_idx, x.getD min_idx 0, prom)] else []

/-- Main scan of `find_local_minima` (`while i < N - 1`).  The loop advances
`i` by at least one per iteration, so calling with fuel `N` is exact. -/
def scanMinima (x : List ℚ) (N : ℕ) (min_prominence : ℚ) (proximity_range : ℕ) :
    ℕ → ℕ → List (ℕ × ℚ × ℚ)
  | _, 0 => []
  | i, fuel + 1 =>
    if i < N - 1 then
      if x.getD i 0 ≤ x.getD (i - 1) 0 ∧ x.getD i 0 ≤ x.getD (i + 1) 0 then
        let j := plateauEnd x (x.getD i 0) i (N - 1 - i)
        minimaAt x N min_prominence proximity_range i j ++
          scanMinima x N min_prominence proximity_range (j + 1) fuel
      else scanMinima x N min_prominence proximity_range (i + 1) fuel
    else []

/-- The backwards descent scan of the tail special case:
`j = N-2; while j > 0 and x[j] < x[j-1]: j -= 1`. -/
def descentStart (x : List ℚ) : ℕ → ℕ
  | 0 => 0
  | j + 1 => if x.getD (j + 1) 0 < x.getD j 0 then descentStart x j else j + 1

/-- `find_local_minima(series, min_prominence, proximity_range)` of the
source, including the "ongoing dip at the tail" special case. -/
def find_local_minima (x : List ℚ) (min_prominence : ℚ) (proximity_range : ℕ) :
    List (ℕ × ℚ × ℚ) :=
  let N := x.length
  if N < 3 then []
  else
    let minima := scanMinima x N min_prominence proximity_range 1 N
    let last_idx := N - 1
    if x.getD last_idx 0 < x.getD (last_idx - 1) 0 then
      let j := descentStart x (last_idx - 1)
      if 1 ≤ last_idx - j then
        let min_idx := last_idx
        let left_higher := if 0 < j then x.getD j 0 else x.getD 0 0
        let left_higher := maxScan x (j - proximity_range) (j + 1) left_higher
        let prom := left_higher - x.getD min_idx 0
        if prom ≥ min_prominence ∧ ¬(min_idx ∈ minima.map (fun t => t.1)) then
          minima ++ [(min_idx, x.getD min_idx 0, prom)]
        else minima
      else minima
    else minima

/-- First index `i` in the given index list with `x[i] >= level`
(the search skeleton of both expansion loops of `expand_dip_boundaries`). -/
def findFirstGe (x : List ℚ) (level : ℚ) : List ℕ → Option ℕ
  | [] => none
  | i :: rest => if x.getD i 0 ≥ level then some i else findFirstGe x level rest

/-- The depth-adaptive crossing level of `expand_dip_boundaries`:
`baseline - adaptive_factor * depth`, where the adaptive factor scales with
the relative depth for positive depths. -/
def crossingLevel (x : List ℚ) (min_idx : ℕ) (baseline threshold_factor : ℚ) : ℚ :=
  let min_val := x.getD min_idx 0
  let depth := baseline - min_val
  let adaptive_factor :=
    if depth > 0 then
      min threshold_factor (threshold_factor * (1 + depth / (baseline + 1e-9)))
    else threshold_factor
  baseline - adaptive_factor * depth

/-- `expand_dip_boundaries(series, min_idx, baseline, threshold_factor)` of
the source.  The left loop scans `min_idx-1, …, 0` and returns the first
crossing index plus one (else `0`); the right loop scans `min_idx+1, …, N-1`
and returns the first crossing index minus one (else `N-1`). -/
def expand_dip_boundaries (x : List ℚ) (min_idx : ℕ) (baseline threshold_factor : ℚ) :
    ℕ × ℕ :=
  let N := x.length
  let crossing_level := crossingLevel x min_idx baseline threshold_factor
  let start :=
    match findFirstGe x crossing_level (List.range min_idx).reverse with
    | some i => i + 1
    | none => 0
  let stop :=
    match findFirstGe x crossing_level (List.range' (min_idx + 1) (N - (min_idx + 1))) with
    | some i => i - 1
    | none => N - 1
  (start, stop)

/-- The full metrics record of `detect_dip` (the keys of the Python dict).
`endI` models the `end` key (a Lean keyword).  The four multi-scale keys
(`scale_factor`, `detection_scale`, `detected_at_scales`, `scale_list`) are
absent from a fresh `detect_dip` record in the source; here they carry the
neutral defaults `0 / "" / 0 / []` until `find_all_dips` writes them. -/
structure Metrics where
  start : ℕ
  endI : ℕ
  width : ℕ
  baseline : ℚ
  local_median : ℚ
  global_median : ℚ
  local_mad : ℚ
  alpha : ℚ
  seg_min : ℚ
  seg_min_index : ℕ
  depth : ℚ
  depth_threshold : ℚ
  prominence : ℚ
  area : ℚ
  recovered : Bool
  is_ongoing : Bool
  confidence : ℚ
  is_dip : Bool
  k : ℚ
  min_abs_depth : ℚ
  reason : Option String
  scale_factor : ℕ
  detection_scale : String
  detected_at_scales : ℕ
  scale_list : List ℕ
deriving DecidableEq

/-- Result value of `detect_dip`: either the short width-gate record
`{"reason": "width_below_min", "width": …, "min_width": …}` or the full
metrics record. -/
inductive DipVerdict where
  | widthFail (width : ℕ) (min_width : ℕ) : DipVerdict
  | full (m : Metrics) : DipVerdict
deriving DecidableEq

/-- First index of `v` in `l` (models `list.index` / `np.argmin`, both of
which return the first occurrence of the minimum at the modelled call site). -/
def idxOfFirst (l : List ℚ) (v : ℚ) : ℕ :=
  match l with
  | [] => 0
  | a :: as => if a = v then 0 else idxOfFirst as v + 1

/-- The zero-MAD scale fallback of `detect_dip` on the accelerated (`numpy`)
path: IQR/1.349, else std/1.4826 when positive, else `1e-9`. -/
def madFallbackNp (ops : FloatOps) (local_ctx : List ℚ) : ℚ :=
  let q1 := pyquantile local_ctx (1/4)
  let q3 := pyquantile local_ctx (3/4)
  let iqr := q3 - q1
  if iqr > 0 then iqr / 1.349
  else
    let std := pystd ops local_ctx
    if std > 0 then std / 1.4826 else 1e-9

/-- The zero-MAD scale fallback of `detect_dip` on the pure-Python path:
mean absolute deviation from the arithmetic mean, `or 1e-9`. -/
def madFallbackPy (local_ctx : List ℚ) : ℚ :=
  let mean_val := local_ctx.sum / local_ctx.length
  let ad := (local_ctx.map (fun v => |v - mean_val|)).sum / local_ctx.length
  if ad = 0 then 1e-9 else ad

/-- `local_mad` resolution of `detect_dip`: the MAD around the local center,
or the given fallback scale estimate when the MAD is exactly zero. -/
def resolveMad (fb : List ℚ → ℚ) (local_ctx : List ℚ) (center : ℚ) : ℚ :=
  let m := mad local_ctx center
  if m = 0 then fb local_ctx else m

/-- The `pre` context window `x[max(0, start - pre_window):start]`. -/
def preCtx (x : List ℚ) (s pre_window : ℕ) : List ℚ :=
  (x.take s).drop (s - pre_window)

/-- The `post` context window `x[end+1 : min(N, end+1+post_window)]`. -/
def postCtx (x : List ℚ) (e post_window : ℕ) : List ℚ :=
  (x.drop (e + 1)).take post_window

/-- The local context of `detect_dip`: `pre` (plus `post` when not ongoing),
falling back to the whole series minus the segment, then to the whole series. -/
def localCtx (x : List ℚ) (s e : ℕ) (pre post : List ℚ) (is_ongoing : Bool)
    (min_width : ℕ) : List ℚ :=
  let ctx := pre ++ (if is_ongoing then [] else post)
  let ctx := if ctx.length < max 5 min_width then x.take s ++ x.drop (e + 1) else ctx
  if ctx.length < 3 then x else ctx

/-- The segment `x[start:end+1]` of `detect_dip`. -/
def segmentOf (x : List ℚ) (s e : ℕ) : List ℚ :=
  (x.drop s).take (e - s + 1)

/-- `is_ongoing = (end >= N - 3) or (len(post) == 0)` of `detect_dip`. -/
def isOngoingOf (x : List ℚ) (e post_window : ℕ) : Bool :=
  decide (e + 3 ≥ x.length) || (postCtx x e post_window).isEmpty

/-- The resolved local context of `detect_dip` (windows, then fallbacks). -/
def localCtxOf (x : List ℚ) (s e pre_window post_window min_width : ℕ) : List ℚ :=
  localCtx x s e (preCtx x s pre_window) (postCtx x e post_window)
    (isOngoingOf x e post_window) min_width

/-- `local_med = _trimmed_mean(local_ctx)` of `detect_dip`. -/
def localMedOf (x : List ℚ) (s e pre_window post_window min_width : ℕ) : ℚ :=
  trimmed_mean (localCtxOf x s e pre_window post_window min_width) 0.1

/-- `local_mad` of `detect_dip`, including the zero-MAD fallback `fb`. -/
def localMadOf (fb : List ℚ → ℚ) (x : List ℚ) (s e pre_window post_window min_width : ℕ) : ℚ :=
  resolveMad fb (localCtxOf x s e pre_window post_window min_width)
    (localMedOf x s e pre_window post_window min_width)

/-- The global context of `detect_dip`: the series minus the segment, or the
whole series when that is empty. -/
def globalCtxOf (x : List ℚ) (s e : ℕ) : List ℚ :=
  let global_ctx := x.take s ++ x.drop (e + 1)
  if global_ctx.isEmpty then x else global_ctx

/-- `global_med = _trimmed_mean(global_ctx)` of `detect_dip`. -/
def globalMedOf (x : List ℚ) (s e : ℕ) : ℚ :=
  trimmed_mean (globalCtxOf x s e) 0.1

/-- `alpha = 1 - exp(-N / n0)` of `detect_dip`. -/
def alphaOf (ops : FloatOps) (N : ℕ) (n0 : ℤ) : ℚ :=
  1 - ops.exp (-(N : ℚ) / (n0 : ℚ))

/-- The blended baseline of `detect_dip`: `max(local, global)` for ongoing
segments or locally elevated regions, else the `alpha` blend. -/
def baselineOf (ops : FloatOps) (x : List ℚ) (s e pre_window post_window min_width : ℕ)
    (n0 : ℤ) : ℚ :=
  let local_med := localMedOf x s e pre_window post_window min_width
  let global_med := globalMedOf x s e
  if isOngoingOf x e post_window = true ∨ local_med > global_med then
    max local_med global_med
  else
    alphaOf ops x.length n0 * global_med + (1 - alphaOf ops x.length n0) * local_med

/-- `seg_min = min(segment)` of `detect_dip` (the segment is nonempty under
the already-checked bounds, so the `getD` default is never observed). -/
def segMinOf (x : List ℚ) (s e : ℕ) : ℚ :=
  (pymin (segmentOf x s e)).getD 0

/-- The absolute index of the first occurrence of the segment minimum. -/
def segMinIdxOf (x : List ℚ) (s e : ℕ) : ℕ :=
  s + idxOfFirst (segmentOf x s e) (segMinOf x s e)

/-- `depth = baseline - seg_min` of `detect_dip`. -/
def depthOf (ops : FloatOps) (x : List ℚ) (s e pre_window post_window min_width : ℕ)
    (n0 : ℤ) : ℚ :=
  baselineOf ops x s e pre_window post_window min_width n0 - segMinOf x s e

/-- `depth_threshold = max(min_abs_depth, k * local_mad)` of `detect_dip`. -/
def thresholdOf (fb : List ℚ → ℚ) (x : List ℚ) (s e pre_window post_window min_width : ℕ)
    (k min_abs_depth : ℚ) : ℚ :=
  max min_abs_depth (k * localMadOf fb x s e pre_window post_window min_width)

/-- `passes_depth = depth >= depth_threshold` of `detect_dip`. -/
def passesDepthOf (ops : FloatOps) (fb : List ℚ → ℚ) (x : List ℚ)
    (s e pre_window post_window min_width : ℕ) (k min_abs_depth : ℚ) (n0 : ℤ) : Bool :=
  decide (depthOf ops x s e pre_window post_window min_width n0 ≥
    thresholdOf fb x s e pre_window post_window min_width k min_abs_depth)

/-- `prominence = (left_ref + right_ref)/2 - seg_min` of `detect_dip`. -/
def promOf (ops : FloatOps) (x : List ℚ) (s e pre_window post_window min_width : ℕ)
    (n0 : ℤ) : ℚ :=
  let pre := preCtx x s pre_window
  let post := postCtx x e post_window
  let baseline := baselineOf ops x s e pre_window post_window min_width n0
  let left_ref := if pre.isEmpty then baseline else trimmed_mean pre 0.1
  let right_ref := if post.isEmpty then baseline else trimmed_mean post 0.1
  (left_ref + right_ref) / 2 - segMinOf x s e

/-- The recovery check of `detect_dip` (source lines 577-617): the standard
epsilon test with a monotonic-improvement fallback, the extended window for
`depth_ratio > 3`, the relaxed epsilon for `depth_ratio > 5`, and trivial
recovery when `require_recovery` is off or no post data exists. -/
def recoveredOf (ops : FloatOps) (fb : List ℚ → ℚ) (x : List ℚ)
    (s e pre_window post_window min_width : ℕ) (k min_abs_depth : ℚ)
    (require_recovery : Bool) (n0 : ℤ) : Bool :=
  let post := postCtx x e post_window
  let baseline := baselineOf ops x s e pre_window post_window min_width n0
  let local_mad := localMadOf fb x s e pre_window post_window min_width
  let depth := depthOf ops x s e pre_window post_window min_width n0
  let depth_threshold := thresholdOf fb x s e pre_window post_window min_width k min_abs_depth
  let seg_min := segMinOf x s e
  let recovery_epsilon := 0.5 * local_mad
  if require_recovery = true ∧ ¬post.isEmpty then
    let depth_ratio := if depth_threshold > 0 then depth / depth_threshold else 0
    if depth_ratio > 3 then
      let extended_post := (x.drop (e + 1)).take (post_window * 2)
      let r := extended_post.any (fun v => decide (|v - baseline| ≤ recovery_epsilon))
      if r = false ∧ depth_ratio > 5 then
        extended_post.any (fun v => decide (|v - baseline| ≤ local_mad))
      else r
    else
      let r := post.any (fun v => decide (|v - baseline| ≤ recovery_epsilon))
      if r = false ∧ 5 ≤ post.length then
        let post_first_half := post.take (post.length / 2)
        let post_second_half := post.drop (post.length / 2)
        if 2 ≤ post_first_half.length ∧ 2 ≤ post_second_half.length then
          let dist_first :=
            (post_first_half.map (fun v => |v - seg_min|)).sum / post_first_half.length
          let dist_second :=
            (post_second_half.map (fun v => |v - seg_min|)).sum / post_second_half.length
          decide (dist_second - dist_first ≥ 0.3 * depth)
        else r
      else r
  else true

/-- `area = sum(baseline - sample)` over the segment. -/
def areaOf (ops : FloatOps) (x : List ℚ) (s e pre_window post_window min_width : ℕ)
    (n0 : ℤ) : ℚ :=
  ((segmentOf x s e).map
    (fun v => baselineOf ops x s e pre_window post_window min_width n0 - v)).sum

/-- The clamped confidence score of `detect_dip` (source lines 626-630). -/
def confidenceOf (ops : FloatOps) (fb : List ℚ → ℚ) (x : List ℚ)
    (s e pre_window post_window min_width : ℕ) (n0 : ℤ) : ℚ :=
  let local_mad := localMadOf fb x s e pre_window post_window min_width
  let depth_score := depthOf ops x s e pre_window post_window min_width n0 / (local_mad + 1e-12)
  let area_score := areaOf ops x s e pre_window post_window min_width n0 /
    ((local_mad + 1e-12) * ((e - s + 1 : ℕ) : ℚ))
  let prom_score := promOf ops x s e pre_window post_window min_width n0 / (local_mad + 1e-12)
  let raw_score := 0.4 * depth_score + 0.3 * area_score + 0.3 * prom_score
  max 0 (min 1 (ops.tanh (raw_score / 3) * 1.2))

/-- `is_dip = passes_depth and recovered` of `detect_dip`. -/
def isDipB (ops : FloatOps) (fb : List ℚ → ℚ) (x : List ℚ)
    (s e pre_window post_window min_width : ℕ) (k min_abs_depth : ℚ)
    (require_recovery : Bool) (n0 : ℤ) : Bool :=
  passesDepthOf ops fb x s e pre_window post_window min_width k min_abs_depth n0 &&
    recoveredOf ops fb x s e pre_window post_window min_width k min_abs_depth
      require_recovery n0

/-- The explanatory `reason` value attached to a failed full record. -/
def reasonOf (ops : FloatOps) (fb : List ℚ → ℚ) (x : List ℚ)
    (s e pre_window post_window min_width : ℕ) (k min_abs_depth : ℚ)
    (require_recovery : Bool) (n0 : ℤ) : Option String :=
  if passesDepthOf ops fb x s e pre_window post_window min_width k min_abs_depth n0 = false then
    some "depth_below_threshold"
  else if require_recovery = true ∧
      recoveredOf ops fb x s e pre_window post_window min_width k min_abs_depth
        require_recovery n0 = false then
    some "no_recovery"
  else none

/-- Body of `detect_dip` after the bounds check, the width gate, and the
`n0 ≠ 0` check have passed (`s`/`e` are the already-validated indices).  The
only fallible operation remaining in the source body is `alpha`'s division by
`n0`, which the caller `detect_dip_core` has already tested, so this body is
total; every other division in the source is guarded (`len > 0` checks,
`depth_threshold > 0` test, `local_mad + 1e-12 > 0`). -/
def detect_main (ops : FloatOps) (fb : List ℚ → ℚ) (x : List ℚ) (s e : ℕ)
    (pre_window post_window min_width : ℕ) (k min_abs_depth : ℚ)
    (require_recovery : Bool) (n0 : ℤ) : Bool × Metrics :=
  (isDipB ops fb x s e pre_window post_window min_width k min_abs_depth require_recovery n0,
    { start := s
      endI := e
      width := e - s + 1
      baseline := baselineOf ops x s e pre_window post_window min_width n0
      local_median := localMedOf x s e pre_window post_window min_width
      global_median := globalMedOf x s e
      local_mad := localMadOf fb x s e pre_window post_window min_width
      alpha := alphaOf ops x.length n0
      seg_min := segMinOf x s e
      seg_min_index := segMinIdxOf x s e
      depth := depthOf ops x s e pre_window post_window min_width n0
      depth_threshold := thresholdOf fb x s e pre_window post_window min_width k min_abs_depth
      prominence := promOf ops x s e pre_window post_window min_width n0
      area := areaOf ops x s e pre_window post_window min_width n0
      recovered := recoveredOf ops fb x s e pre_window post_window min_width k min_abs_depth
        require_recovery n0
      is_ongoing := isOngoingOf x e post_window
      confidence := confidenceOf ops fb x s e pre_window post_window min_width n0
      is_dip := isDipB ops fb x s e pre_window post_window min_width k min_abs_depth
        require_recovery n0
      k := k
      min_abs_depth := min_abs_depth
      reason := reasonOf ops fb x s e pre_window post_window min_width k min_abs_depth
        require_recovery n0
      scale_factor := 0
      detection_scale := ""
      detected_at_scales := 0
      scale_list := [] })

/-- `detect_dip(series, start, end, …)` parameterised by the zero-MAD scale
fallback `fb` (the only place where the accelerated and the pure-Python code
paths of the source compute different values inside `detect_dip`).
`stop` models the Python parameter `end` (a Lean keyword).  The source
evaluates `alpha`'s division by `n0` only after the bounds check and the
width gate have passed; everything between the width gate and that division
is total, so the `n0 = 0` failure (`ZeroDivisionError`) is tested right after
the width gate without changing behaviour. -/
def detect_dip_core (ops : FloatOps) (fb : List ℚ → ℚ) (x : List ℚ) (start stop : ℤ)
    (pre_window post_window min_width : ℕ) (k min_abs_depth : ℚ)
    (require_recovery : Bool) (n0 : ℤ) : Except PyErr (Bool × DipVerdict) :=
  if start < 0 ∨ (x.length : ℤ) ≤ stop ∨ stop < start then .error .valueError
  else
    let s := start.toNat
    let e := stop.toNat
    let width := e - s + 1
    if width < min_width then .ok (false, .widthFail width min_width)
    else if (n0 : ℚ) = 0 then .error .zeroDiv
    else
      let p := detect_main ops fb x s e pre_window post_window min_width k min_abs_depth
        require_recovery n0
      .ok (p.1, .full p.2)

/-- `detect_dip` with the accelerated (`numpy`) zero-MAD fallback — the path
the source takes when `numpy` is importable. -/
def detect_dip (ops : FloatOps) (x : List ℚ) (start stop : ℤ)
    (pre_window post_window min_width : ℕ) (k min_abs_depth : ℚ)
    (require_recovery : Bool) (n0 : ℤ) : Except PyErr (Bool × DipVerdict) :=
  detect_dip_core ops (madFallbackNp ops) x start stop pre_window post_window min_width
    k min_abs_depth require_recovery n0

/-- `detect_dip` with the pure-Python zero-MAD fallback — the path the source
takes when `numpy` is not importable. -/
def detect_dip_py (ops : FloatOps) (x : List ℚ) (start stop : ℤ)
    (pre_window post_window min_width : ℕ) (k min_abs_depth : ℚ)
    (require_recovery : Bool) (n0 : ℤ) : Except PyErr (Bool × DipVerdict) :=
  detect_dip_core ops madFallbackPy x start stop pre_window post_window min_width
    k min_abs_depth require_recovery n0

/-- The full metrics record of a `detect_dip` result, when one was produced. -/
def metricsOfR (r : Except PyErr (Bool × DipVerdict)) : Option Metrics :=
  match r with
  | .ok (_, .full m) => some m
  | _ => none

/-- The boolean verdict of a `detect_dip` result (`false` if it raised). -/
def isDipOf (r : Except PyErr (Bool × DipVerdict)) : Bool :=
  match r with
  | .ok p => p.1
  | .error _ => false

/-- The raised exception of a fallible result, when one was raised. -/
def errOf {α : Type} (r : Except PyErr α) : Option PyErr :=
  match r with
  | .error e => some e
  | .ok _ => none

/-- The returned list of a `find_all_dips` result (`[]` if it raised). -/
def okList {α : Type} (r : Except PyErr (List α)) : List α :=
  match r with
  | .ok l => l
  | .error _ => []

/-- The per-scale moving-median smoother of `find_all_dips` (edge-padded, as
`np.pad(..., mode='edge')`); the raw series when the effective window is 1. -/
def smoothSeries (x : List ℚ) (effective_smoothing : ℕ) : List ℚ :=
  if effective_smoothing ≤ 1 then x
  else
    let pad := effective_smoothing / 2
    let x_pad := List.replicate pad (x.headD 0) ++ x ++ List.replicate pad (x.getLastD 0)
    (List.range x.length).map (fun i => pymedian ((x_pad.drop i).take effective_smoothing))

/-- Scale-factor selection of `find_all_dips` (source lines 302-312):
defaults depend on the series length when `multi_scale` is set and no
explicit factors are given; `multi_scale=False` forces `[1]`. -/
def selectScaleFactors (multi_scale : Bool) (scale_factors : Option (List ℕ)) (N : ℕ) :
    List ℕ :=
  if multi_scale = true ∧ scale_factors = none then
    if 200 < N then [1, 2, 4, 8]
    else if 50 < N then [1, 2, 4]
    else [1, 2]
  else if multi_scale = false then [1]
  else scale_factors.getD [1]

/-- The local-baseline context that `find_all_dips` builds around a detected
minimum (source lines 350-376), including the near-the-end special case that
filters out the partial descent. -/
def mkContext (x_smooth : List ℚ) (N pre_window post_window min_idx : ℕ)
    (min_val prom : ℚ) : List ℚ :=
  let context :=
    if min_idx + 2 ≥ N then
      let context := (x_smooth.take min_idx).drop (min_idx - pre_window * 2)
      if 3 < context.length then
        let stable_context :=
          (context.take (context.length - 1)).filter
            (fun v => decide (v ≥ min_val + 0.5 * prom))
        if 3 ≤ stable_context.length then stable_context else context
      else context
    else
      ((x_smooth.take min_idx).drop (min_idx - pre_window)) ++
        ((x_smooth.take (min N (min_idx + post_window))).drop (min_idx + 1))
  if context.length < 3 then x_smooth else context

/-- The `fast`/`medium`/`slow` label attached to a kept candidate. -/
def detectionScaleLabel (scale_factor : ℕ) : String :=
  if scale_factor = 1 then "fast" else if scale_factor ≤ 2 then "medium" else "slow"

/-- Finalisation of a merge winner: attach the distinct detection scales and
apply the multi-scale confidence boost (capped at 1). -/
def finalizeDip (current : Metrics) (current_scales : List ℕ) : Metrics :=
  let scale_list := sortBy (fun a b => decide (a ≤ b)) current_scales.dedup
  let m := { current with detected_at_scales := scale_list.length, scale_list := scale_list }
  if 1 < current_scales.length then
    let boosted := min 1 (m.confidence * (1 + 0.1 * ((current_scales.length - 1 : ℕ) : ℚ)))
    { m with confidence := boosted }
  else m

/-- One step of the cross-scale merge sweep of `find_all_dips` (source lines
413-434).  The state is `(current winner, its recording scales, finished
winners)`.  Evaluating the `abs(…)/current['depth']` overlap test raises
`ZeroDivisionError` when the current winner's depth is exactly zero. -/
def mergeStep (ops : FloatOps) (st : Metrics × List ℕ × List Metrics) (next_dip : Metrics) :
    Except PyErr (Metrics × List ℕ × List Metrics) :=
  let current := st.1
  let current_scales := st.2.1
  let merged := st.2.2
  let gap_tolerance : ℕ :=
    max 2 (pyTrunc (2 * ops.sqrt ((max current.scale_factor next_dip.scale_factor : ℕ) : ℚ))).toNat
  if next_dip.start ≤ current.endI + gap_tolerance then
    if next_dip.depth > current.depth * 1.1 then
      .ok (next_dip, [next_dip.scale_factor], merged)
    else if current.depth = 0 then .error .zeroDiv
    else if |next_dip.depth - current.depth| / current.depth < 0.1 then
      .ok (current, current_scales ++ [next_dip.scale_factor], merged)
    else .ok (current, current_scales, merged)
  else
    .ok (next_dip, [next_dip.scale_factor], merged ++ [finalizeDip current current_scales])

/-- The whole merge sweep over the start-sorted candidates, finalising the
last winner at the end. -/
def mergeFold (ops : FloatOps) (cands : List Metrics) : Except PyErr (List Metrics) :=
  match cands with
  | [] => .ok []
  | c0 :: rest => do
    let st ← rest.foldlM (mergeStep ops) (c0, [c0.scale_factor], [])
    pure (st.2.2 ++ [finalizeDip st.1 st.2.1])

/-- Body of the per-minimum loop of `find_all_dips` (source lines 350-397):
build the local-baseline context, expand the minimum into a segment, classify
it on the original series with the scale-adjusted minimum width, and append
the tagged record when it is a dip. -/
def perScaleStep (ops : FloatOps) (x x_smooth : List ℚ)
    (N pre_window post_window min_width : ℕ) (k min_abs_depth : ℚ)
    (require_recovery : Bool) (n0 : ℤ) (scale_factor : ℕ)
    (acc : List Metrics) (t : ℕ × ℚ × ℚ) : Except PyErr (List Metrics) := do
  let min_idx := t.1
  let min_val := t.2.1
  let prom := t.2.2
  let context := mkContext x_smooth N pre_window post_window min_idx min_val prom
  let local_baseline := pymedian context
  let se := expand_dip_boundaries x_smooth min_idx local_baseline 0.3
  let scale_min_width :=
    max min_width (pyTrunc ((min_width : ℚ) * ops.sqrt ((scale_factor : ℕ) : ℚ))).toNat
  let r ← detect_dip ops x (se.1 : ℤ) (se.2 : ℤ) pre_window post_window scale_min_width
    k min_abs_depth require_recovery n0
  match r with
  | (true, .full m) =>
    let tagged := { m with scale_factor := scale_factor,
                           detection_scale := detectionScaleLabel scale_factor }
    pure (acc ++ [tagged])
  | _ => pure acc

/-- The global scale estimate of `find_all_dips` at one scale: the MAD of the
smoothed series, with the `(max - min)/6 or 1e-9` fallback when it is zero
(`max()`/`min()` raise `ValueError` on an empty series). -/
def globalMadOfSmooth (x_smooth : List ℚ) : Except PyErr ℚ :=
  let global_med := pymedian x_smooth
  let global_mad0 := mad x_smooth global_med
  if global_mad0 = 0 then
    match pymax x_smooth, pymin x_smooth with
    | some mx, some mn =>
      let r := (mx - mn) / 6
      pure (if r = 0 then 1e-9 else r)
    | _, _ => .error .valueError
  else pure global_mad0

/-- Candidate generation of `find_all_dips` at one scale factor: smooth,
estimate the global scale, find prominence-qualified minima, expand each into
a segment, classify it with `detect_dip` on the original series, and keep the
records classified as dips, tagged with the scale. -/
def perScale (ops : FloatOps) (x : List ℚ)
    (N pre_window post_window min_width smoothing_window : ℕ)
    (min_prominence_factor k min_abs_depth : ℚ) (require_recovery : Bool) (n0 : ℤ)
    (scale_factor : ℕ) : Except PyErr (List Metrics) := do
  let effective_smoothing := max 1 (smoothing_window * scale_factor)
  let x_smooth := smoothSeries x effective_smoothing
  let global_mad ← globalMadOfSmooth x_smooth
  let sq := ops.sqrt ((scale_factor : ℕ) : ℚ)
  if sq = 0 then .error .zeroDiv
  else
    let scale_prom_factor := min_prominence_factor / sq
    let min_prom := scale_prom_factor * global_mad
    let prominence_range := min (10 * scale_factor) (N / 4)
    let minima := find_local_minima x_smooth min_prom prominence_range
    minima.foldlM (perScaleStep ops x x_smooth N pre_window post_window min_width
      k min_abs_depth require_recovery n0 scale_factor) []

/-- The per-scale-factor iteration of `find_all_dips`, accumulating the kept
candidates of each scale in order. -/
def scaleStep (ops : FloatOps) (x : List ℚ)
    (N pre_window post_window min_width smoothing_window : ℕ)
    (min_prominence_factor k min_abs_depth : ℚ) (require_recovery : Bool) (n0 : ℤ)
    (acc : List Metrics) (sf : ℕ) : Except PyErr (List Metrics) := do
  let cs ← perScale ops x N pre_window post_window min_width smoothing_window
    min_prominence_factor k min_abs_depth require_recovery n0 sf
  pure (acc ++ cs)

/-- `find_all_dips(series, …)` of the source (the accelerated path, which is
the one that smooths; the source's Python signature defaults are
`smoothing_window=3`, `min_prominence_factor=0.3`, windows `None`,
`min_width=2`, `k=0.25`, `min_abs_depth=0.0`, `require_recovery=True`,
`n0=200`, `max_dips=50`, `multi_scale=True`, `scale_factors=None`). -/
def find_all_dips (ops : FloatOps) (x : List ℚ) (smoothing_window : ℕ)
    (min_prominence_factor : ℚ) (pre_window post_window : Option ℕ) (min_width : ℕ)
    (k min_abs_depth : ℚ) (require_recovery : Bool) (n0 : ℤ) (max_dips : ℕ)
    (multi_scale : Bool) (scale_factors : Option (List ℕ)) : Except PyErr (List Metrics) :=
  let N := x.length
  if N < min_width then .ok []
  else
    let pre_window := pre_window.getD (max min_width (min 50 (N / 4)))
    let post_window := post_window.getD (max min_width (min 50 (N / 4)))
    let sfs := selectScaleFactors multi_scale scale_factors N
    do
      let all_candidates ← sfs.foldlM (scaleStep ops x N pre_window post_window min_width
        smoothing_window min_prominence_factor k min_abs_depth require_recovery n0)
        ([] : List Metrics)
      if all_candidates.isEmpty then pure []
      else do
        let merged ←
          if 1 < all_candidates.length then
            mergeFold ops (sortBy (fun a b => decide (a.start ≤ b.start)) all_candidates)
          else
            pure (all_candidates.map (fun c =>
              { c with detected_at_scales := 1, scale_list := [c.scale_factor] }))
        pure ((sortBy (fun a b => decide (b.confidence ≤ a.confidence)) merged).take max_dips)

/-- A concrete `FloatOps` instance (all three functions constantly `0`) used
for evaluating the embedding on inputs whose observed fields provably do not
depend on the transcendental functions' values.  Note `sqrt 0 = 0` agrees with
the real square root, which is what the `np.std` fallback branch observes on
the concrete inputs below. -/
def ops0 : FloatOps := ⟨fun _ => 0, fun _ => 0, fun _ => 0⟩

/-- A `FloatOps` instance whose `sqrt` is constantly `1` (hence positive on
positives), used to instantiate theorems that hypothesise a positive square
root. -/
def ops1 : FloatOps := ⟨fun _ => 0, fun _ => 0, fun _ => 1⟩

/-! ### Helper lemmas about the sorting and statistics primitives -/

lemma mem_insertBy {α : Type} (le : α → α → Bool) (a b : α) (l : List α) :
    b ∈ insertBy le a l ↔ b = a ∨ b ∈ l := by
  induction l with
  | nil => simp [insertBy]
  | cons c cs ih =>
    simp only [insertBy]
    split
    · simp [List.mem_cons]
    · simp only [List.mem_cons, ih]
      tauto

lemma mem_sortBy {α : Type} (le : α → α → Bool) (b : α) (l : List α) :
    b ∈ sortBy le l ↔ b ∈ l := by
  induction l with
  | nil => simp [sortBy]
  | cons c cs ih =>
    rw [show sortBy le (c :: cs) = insertBy le c (sortBy le cs) from rfl, mem_insertBy]
    simp [ih, List.mem_cons]

lemma length_insertBy {α : Type} (le : α → α → Bool) (a : α) (l : List α) :
    (insertBy le a l).length = l.length + 1 := by
  induction l with
  | nil => simp [insertBy]
  | cons c cs ih =>
    simp only [insertBy]
    split <;> simp [ih]

lemma length_sortBy {α : Type} (le : α → α → Bool) (l : List α) :
    (sortBy le l).length = l.length := by
  induction l with
  | nil => simp [sortBy]
  | cons c cs ih =>
    rw [show sortBy le (c :: cs) = insertBy le c (sortBy le cs) from rfl, length_insertBy, ih]
    rfl

lemma getD_mem {l : List ℚ} {n : ℕ} (h : n < l.length) (d : ℚ) : l.getD n d ∈ l := by
  rw [List.getD_eq_getElem?_getD, List.getElem?_eq_getElem h]
  exact List.getElem_mem h

lemma pymedian_nonneg {l : List ℚ} (h : ∀ a ∈ l, 0 ≤ a) : 0 ≤ pymedian l := by
  have hm : ∀ a ∈ sortQ l, 0 ≤ a := fun a ha => h a ((mem_sortBy _ _ _).mp ha)
  simp only [pymedian]
  split_ifs with h0 h1
  · exact le_rfl
  · exact hm _ (getD_mem (by omega) 0)
  · have g1 : (0:ℚ) ≤ (sortQ l).getD ((sortQ l).length / 2 - 1) 0 :=
      hm _ (getD_mem (by omega) 0)
    have g2 : (0:ℚ) ≤ (sortQ l).getD ((sortQ l).length / 2) 0 :=
      hm _ (getD_mem (by omega) 0)
    positivity

lemma mad_nonneg (v : List ℚ) (c : ℚ) : 0 ≤ mad v c := by
  unfold mad
  split_ifs
  · exact le_rfl
  · refine pymedian_nonneg ?_
    intro a ha
    simp only [List.mem_map] at ha
    obtain ⟨b, _, rfl⟩ := ha
    exact abs_nonneg _

lemma madFallbackNp_pos (ops : FloatOps) (ctx : List ℚ) : 0 < madFallbackNp ops ctx := by
  simp only [madFallbackNp]
  split_ifs with h1 h2
  · exact div_pos h1 (by norm_num)
  · exact div_pos h2 (by norm_num)
  · norm_num

lemma resolveMad_pos (fb : List ℚ → ℚ) (ctx : List ℚ) (c : ℚ) (hfb : 0 < fb ctx) :
    0 < resolveMad fb ctx c := by
  simp only [resolveMad]
  split_ifs with h
  · exact hfb
  · exact lt_of_le_of_ne (mad_nonneg _ _) (Ne.symm h)

lemma localMadOf_np_pos (ops : FloatOps) (x : List ℚ) (s e pw pow mw : ℕ) :
    0 < localMadOf (madFallbackNp ops) x s e pw pow mw := by
  unfold localMadOf
  exact resolveMad_pos _ _ _ (madFallbackNp_pos _ _)

lemma localMadOf_nonneg (fb : List ℚ → ℚ) (x : List ℚ) (s e pw pow mw : ℕ)
    (hfb : ∀ l, 0 ≤ fb l) : 0 ≤ localMadOf fb x s e pw pow mw := by
  simp only [localMadOf, resolveMad]
  split_ifs with h
  · exact hfb _
  · exact mad_nonneg _ _

lemma thresholdOf_np_pos (ops : FloatOps) (x : List ℚ) (s e pw pow mw : ℕ)
    (k min_abs_depth : ℚ) (h : 0 < min_abs_depth ∨ 0 < k) :
    0 < thresholdOf (madFallbackNp ops) x s e pw pow mw k min_abs_depth := by
  unfold thresholdOf
  rcases h with h | h
  · exact lt_max_of_lt_left h
  · exact lt_max_of_lt_right (mul_pos h (localMadOf_np_pos ops x s e pw pow mw))

lemma confidenceOf_nonneg (ops : FloatOps) (fb : List ℚ → ℚ) (x : List ℚ)
    (s e pw pow mw : ℕ) (n0 : ℤ) : 0 ≤ confidenceOf ops fb x s e pw pow mw n0 := by
  simp only [confidenceOf]
  exact le_max_left 0 _

lemma confidenceOf_le_one (ops : FloatOps) (fb : List ℚ → ℚ) (x : List ℚ)
    (s e pw pow mw : ℕ) (n0 : ℤ) : confidenceOf ops fb x s e pw pow mw n0 ≤ 1 := by
  simp only [confidenceOf]
  exact max_le (by norm_num) (min_le_left _ _)

/-! ### Helper lemmas about `detect_dip_core` -/

lemma detect_core_err_iff (ops : FloatOps) (fb : List ℚ → ℚ) (x : List ℚ) (s e : ℤ)
    (pw pow mw : ℕ) (k madm : ℚ) (rr : Bool) (n0 : ℤ) :
    errOf (detect_dip_core ops fb x s e pw pow mw k madm rr n0) = some PyErr.valueError ↔
      (s < 0 ∨ (x.length : ℤ) ≤ e ∨ e < s) := by
  unfold detect_dip_core
  by_cases h1 : (s < 0 ∨ (x.length : ℤ) ≤ e ∨ e < s)
  · rw [if_pos h1]
    simp [errOf, h1]
  · rw [if_neg h1]
    by_cases hw : e.toNat - s.toNat + 1 < mw
    · simp [hw, errOf, h1]
    · by_cases hn : (n0 : ℚ) = 0 <;> simp [hw, hn, errOf, h1]

lemma detect_core_isOk (ops : FloatOps) (fb : List ℚ → ℚ) (x : List ℚ) (s e : ℤ)
    (pw pow mw : ℕ) (k madm : ℚ) (rr : Bool) (n0 : ℤ) (hn0 : n0 ≠ 0)
    (hb : ¬(s < 0 ∨ (x.length : ℤ) ≤ e ∨ e < s)) :
    (detect_dip_core ops fb x s e pw pow mw k madm rr n0).isOk = true := by
  have hn : ¬((n0 : ℚ) = 0) := by exact_mod_cast hn0
  unfold detect_dip_core
  rw [if_neg hb]
  by_cases hw : e.toNat - s.toNat + 1 < mw
  · simp [hw, Except.isOk, Except.toBool]
  · simp [hw, hn, Except.isOk, Except.toBool]

lemma detect_core_full (ops : FloatOps) (fb : List ℚ → ℚ) (x : List ℚ) (s e : ℤ)
    (pw pow mw : ℕ) (k madm : ℚ) (rr : Bool) (n0 : ℤ)
    (hb : ¬(s < 0 ∨ (x.length : ℤ) ≤ e ∨ e < s))
    (hw : mw ≤ e.toNat - s.toNat + 1) (hn0 : n0 ≠ 0) :
    detect_dip_core ops fb x s e pw pow mw k madm rr n0 =
      .ok ((detect_main ops fb x s.toNat e.toNat pw pow mw k madm rr n0).1,
        .full (detect_main ops fb x s.toNat e.toNat pw pow mw k madm rr n0).2) := by
  unfold detect_dip_core
  rw [if_neg hb, if_neg (not_lt.mpr hw), if_neg (by simpa using hn0)]

/-- Every full record that `detect_dip_core` can return is the `detect_main`
record of the validated indices. -/
lemma detect_core_shape (ops : FloatOps) (fb : List ℚ → ℚ) (x : List ℚ) (s e : ℤ)
    (pw pow mw : ℕ) (k madm : ℚ) (rr : Bool) (n0 : ℤ) (b : Bool) (m : Metrics)
    (h : detect_dip_core ops fb x s e pw pow mw k madm rr n0 = .ok (b, .full m)) :
    b = (detect_main ops fb x s.toNat e.toNat pw pow mw k madm rr n0).1 ∧
      m = (detect_main ops fb x s.toNat e.toNat pw pow mw k madm rr n0).2 := by
  unfold detect_dip_core at h
  by_cases h1 : (s < 0 ∨ (x.length : ℤ) ≤ e ∨ e < s)
  · rw [if_pos h1] at h
    cases h
  · rw [if_neg h1] at h
    simp only [] at h
    by_cases hw : e.toNat - s.toNat + 1 < mw
    · simp [hw] at h
    · by_cases hn : (n0 : ℚ) = 0
      · simp [hw, hn] at h
      · rw [if_neg hw, if_neg hn] at h
        simp only [Except.ok.injEq, Prod.mk.injEq, DipVerdict.full.injEq] at h
        exact ⟨h.1.symm, h.2.symm⟩

/-! ### Index bounds for the minimum finder and the boundary expander -/

lemma plateauEnd_ge (x : List ℚ) (xi : ℚ) :
    ∀ (fuel j : ℕ), j ≤ plateauEnd x xi j fuel := by
  intro fuel
  induction fuel with
  | zero => intro j; simp [plateauEnd]
  | succ f ih =>
    intro j
    simp only [plateauEnd]
    split
    · exact le_trans (Nat.le_succ j) (ih (j + 1))
    · exact le_rfl

lemma plateauEnd_le (x : List ℚ) (xi : ℚ) :
    ∀ (fuel j : ℕ), plateauEnd x xi j fuel ≤ j + fuel := by
  intro fuel
  induction fuel with
  | zero => intro j; simp [plateauEnd]
  | succ f ih =>
    intro j
    simp only [plateauEnd]
    split
    · exact le_trans (ih (j + 1)) (by omega)
    · omega

lemma mem_ite_singleton {α : Type} (c : Prop) [Decidable c] (u t : α)
    (h : t ∈ (if c then [u] else ([] : List α))) : t = u := by
  split at h
  · simpa using h
  · simp at h

lemma minimaAt_idx (x : List ℚ) (N : ℕ) (mp : ℚ) (pr i j : ℕ) :
    ∀ t ∈ minimaAt x N mp pr i j, t.1 = (i + j) / 2 := by
  intro t ht
  simp only [minimaAt] at ht
  rw [mem_ite_singleton _ _ _ ht]

lemma scanMinima_idx_lt (x : List ℚ) (N : ℕ) (mp : ℚ) (pr : ℕ) :
    ∀ (fuel i : ℕ) (t : ℕ × ℚ × ℚ), t ∈ scanMinima x N mp pr i fuel → t.1 < N := by
  intro fuel
  induction fuel with
  | zero => intro i t ht; simp [scanMinima] at ht
  | succ f ih =>
    intro i t ht
    simp only [scanMinima] at ht
    split at ht
    · rename_i hiN
      split at ht
      · rw [List.mem_append] at ht
        rcases ht with ht | ht
        · have h1 := minimaAt_idx x N mp pr i _ t ht
          have hj1 : i ≤ plateauEnd x (x.getD i 0) i (N - 1 - i) := plateauEnd_ge x _ _ i
          have hj2 : plateauEnd x (x.getD i 0) i (N - 1 - i) ≤ i + (N - 1 - i) :=
            plateauEnd_le x _ _ i
          omega
        · exact ih _ t ht
      · exact ih _ t ht
    · simp at ht

lemma find_local_minima_shape (x : List ℚ) (mp : ℚ) (pr : ℕ) :
    find_local_minima x mp pr = [] ∨
    find_local_minima x mp pr = scanMinima x x.length mp pr 1 x.length ∨
    (3 ≤ x.length ∧ ∃ v p, find_local_minima x mp pr =
      scanMinima x x.length mp pr 1 x.length ++ [(x.length - 1, v, p)]) := by
  simp only [find_local_minima]
  split_ifs with h1 h2 h3 h4 <;>
    first
      | exact Or.inl rfl
      | exact Or.inr (Or.inl rfl)
      | exact Or.inr (Or.inr ⟨by omega, _, _, rfl⟩)

lemma find_local_minima_idx_lt (x : List ℚ) (mp : ℚ) (pr : ℕ) :
    ∀ t ∈ find_local_minima x mp pr, t.1 < x.length := by
  intro t ht
  rcases find_local_minima_shape x mp pr with hs | hs | ⟨hN, v, p, hs⟩
  · rw [hs] at ht
    simp at ht
  · rw [hs] at ht
    exact scanMinima_idx_lt x _ mp pr _ _ t ht
  · rw [hs, List.mem_append] at ht
    rcases ht with ht | ht
    · exact scanMinima_idx_lt x _ mp pr _ _ t ht
    · simp only [List.mem_singleton] at ht
      rw [ht]
      omega

lemma findFirstGe_mem (x : List ℚ) (lvl : ℚ) :
    ∀ (l : List ℕ) (i : ℕ), findFirstGe x lvl l = some i → i ∈ l := by
  intro l
  induction l with
  | nil => intro i h; simp [findFirstGe] at h
  | cons a as ih =>
    intro i h
    simp only [findFirstGe] at h
    split at h
    · simp only [Option.some.injEq] at h
      subst h
      exact List.mem_cons_self a as
    · exact List.mem_cons_of_mem a (ih i h)

lemma expand_bounds (x : List ℚ) (min_idx : ℕ) (b tf : ℚ) (h : min_idx < x.length) :
    (expand_dip_boundaries x min_idx b tf).1 ≤ min_idx ∧
      min_idx ≤ (expand_dip_boundaries x min_idx b tf).2 ∧
      (expand_dip_boundaries x min_idx b tf).2 < x.length := by
  simp only [expand_dip_boundaries]
  refine ⟨?_, ?_, ?_⟩
  · cases hfl : findFirstGe x (crossingLevel x min_idx b tf) (List.range min_idx).reverse with
    | none => simp [hfl]
    | some i =>
      have hm := findFirstGe_mem x _ _ _ hfl
      rw [List.mem_reverse, List.mem_range] at hm
      simp only [hfl]
      exact hm
  · cases hfr : findFirstGe x (crossingLevel x min_idx b tf)
      (List.range' (min_idx + 1) (x.length - (min_idx + 1))) with
    | none =>
      simp only [hfr]
      show min_idx ≤ x.length - 1
      omega
    | some i =>
      have hm := findFirstGe_mem x _ _ _ hfr
      rw [List.mem_range'] at hm
      obtain ⟨u, hu, hi⟩ := hm
      simp only [hfr]
      show min_idx ≤ i - 1
      omega
  · cases hfr : findFirstGe x (crossingLevel x min_idx b tf)
      (List.range' (min_idx + 1) (x.length - (min_idx + 1))) with
    | none =>
      simp only [hfr]
      show x.length - 1 < x.length
      omega
    | some i =>
      have hm := findFirstGe_mem x _ _ _ hfr
      rw [List.mem_range'] at hm
      obtain ⟨u, hu, hi⟩ := hm
      simp only [hfr]
      show i - 1 < x.length
      omega

lemma smoothSeries_length (x : List ℚ) (eff : ℕ) : (smoothSeries x eff).length = x.length := by
  simp only [smoothSeries]
  split
  · rfl
  · simp

/-! ### Invariants of the cross-scale merge -/

lemma except_bind_ok {α β : Type} (a : α) (f : α → Except PyErr β) :
    (Except.ok a >>= f) = f a := rfl

lemma except_bind_err {α β : Type} (e : PyErr) (f : α → Except PyErr β) :
    ((Except.error e : Except PyErr α) >>= f) = .error e := rfl

lemma finalizeDip_depth (c : Metrics) (l : List ℕ) : (finalizeDip c l).depth = c.depth := by
  simp only [finalizeDip]
  split_ifs <;> rfl

lemma finalizeDip_conf (c : Metrics) (l : List ℕ) (h0 : 0 ≤ c.confidence)
    (h1 : c.confidence ≤ 1) :
    0 ≤ (finalizeDip c l).confidence ∧ (finalizeDip c l).confidence ≤ 1 := by
  simp only [finalizeDip]
  split_ifs with h
  · constructor
    · refine le_min (by norm_num) (mul_nonneg h0 ?_)
      positivity
    · exact min_le_left _ _
  · exact ⟨h0, h1⟩

lemma mergeStep_cases (ops : FloatOps) (st : Metrics × List ℕ × List Metrics) (nxt : Metrics)
    (st2 : Metrics × List ℕ × List Metrics) (h : mergeStep ops st nxt = .ok st2) :
    (st2.1 = nxt ∨ st2.1 = st.1) ∧
      (st2.2.2 = st.2.2 ∨ st2.2.2 = st.2.2 ++ [finalizeDip st.1 st.2.1]) := by
  simp only [mergeStep] at h
  split_ifs at h <;> simp only [Except.ok.injEq] at h <;> rw [← h] <;> simp

lemma mergeStep_isOk (ops : FloatOps) (st : Metrics × List ℕ × List Metrics) (nxt : Metrics)
    (hd : st.1.depth ≠ 0) : ∃ st2, mergeStep ops st nxt = .ok st2 := by
  simp only [mergeStep]
  split_ifs <;> first
    | exact ⟨_, rfl⟩
    | exact absurd ‹st.1.depth = 0› hd

lemma foldlM_mergeStep_ok (ops : FloatOps) :
    ∀ (l : List Metrics) (st : Metrics × List ℕ × List Metrics),
      st.1.depth ≠ 0 → (∀ m ∈ l, m.depth ≠ 0) →
      ∃ st2, l.foldlM (mergeStep ops) st = .ok st2 := by
  intro l
  induction l with
  | nil => intro st _ _; exact ⟨st, rfl⟩
  | cons a as ih =>
    intro st h1 h2
    obtain ⟨st1, hst1⟩ := mergeStep_isOk ops st a h1
    have hcur : st1.1.depth ≠ 0 := by
      rcases (mergeStep_cases ops st a st1 hst1).1 with h | h
      · rw [h]; exact h2 a (List.mem_cons_self a as)
      · rw [h]; exact h1
    obtain ⟨st2, hst2⟩ := ih st1 hcur (fun m hm => h2 m (List.mem_cons_of_mem a hm))
    refine ⟨st2, ?_⟩
    rw [List.foldlM_cons, hst1, except_bind_ok]
    exact hst2

lemma foldlM_mergeStep_mem (ops : FloatOps) (Q : Metrics → Prop)
    (hfin : ∀ c l, Q c → Q (finalizeDip c l)) :
    ∀ (l : List Metrics) (st st2 : Metrics × List ℕ × List Metrics),
      l.foldlM (mergeStep ops) st = .ok st2 →
      Q st.1 → (∀ m ∈ st.2.2, Q m) → (∀ m ∈ l, Q m) →
      Q st2.1 ∧ ∀ m ∈ st2.2.2, Q m := by
  intro l
  induction l with
  | nil =>
    intro st st2 hfold h1 h2 _
    simp only [List.foldlM_nil] at hfold
    cases hfold
    exact ⟨h1, h2⟩
  | cons a as ih =>
    intro st st2 hfold h1 h2 h3
    rw [List.foldlM_cons] at hfold
    cases hm1 : mergeStep ops st a with
    | error e =>
      rw [hm1, except_bind_err] at hfold
      cases hfold
    | ok st1 =>
      rw [hm1, except_bind_ok] at hfold
      have hc := mergeStep_cases ops st a st1 hm1
      have q1 : Q st1.1 := by
        rcases hc.1 with h | h
        · rw [h]; exact h3 a (List.mem_cons_self a as)
        · rw [h]; exact h1
      have q2 : ∀ m ∈ st1.2.2, Q m := by
        rcases hc.2 with h | h
        · rw [h]; exact h2
        · rw [h]
          intro m hm
          rw [List.mem_append] at hm
          rcases hm with hm | hm
          · exact h2 m hm
          · simp only [List.mem_singleton] at hm
            rw [hm]
            exact hfin _ _ h1
      exact ih st1 st2 hfold q1 q2 (fun m hm => h3 m (List.mem_cons_of_mem a hm))

lemma mergeFold_mem (ops : FloatOps) (Q : Metrics → Prop)
    (hfin : ∀ c l, Q c → Q (finalizeDip c l)) (cands res : List Metrics)
    (h : mergeFold ops cands = .ok res) (hc : ∀ m ∈ cands, Q m) : ∀ m ∈ res, Q m := by
  cases cands with
  | nil =>
    simp only [mergeFold] at h
    cases h
    simp
  | cons c0 rest =>
    simp only [mergeFold] at h
    cases hf : rest.foldlM (mergeStep ops) (c0, [c0.scale_factor], []) with
    | error e =>
      rw [hf, except_bind_err] at h
      cases h
    | ok st =>
      rw [hf, except_bind_ok] at h
      have hres : res = st.2.2 ++ [finalizeDip st.1 st.2.1] := by
        cases h
        rfl
      have hinv := foldlM_mergeStep_mem ops Q hfin rest (c0, [c0.scale_factor], []) st hf
        (hc c0 (List.mem_cons_self c0 rest)) (by intro m hm; simp at hm)
        (fun m hm => hc m (List.mem_cons_of_mem c0 hm))
      rw [hres]
      intro m hm
      rw [List.mem_append] at hm
      rcases hm with hm | hm
      · exact hinv.2 m hm
      · simp only [List.mem_singleton] at hm
        rw [hm]
        exact hfin _ _ hinv.1

lemma mergeFold_isOk (ops : FloatOps) (cands : List Metrics)
    (hd : ∀ m ∈ cands, m.depth ≠ 0) : (mergeFold ops cands).isOk = true := by
  cases cands with
  | nil => rfl
  | cons c0 rest =>
    simp only [mergeFold]
    obtain ⟨st2, hst2⟩ := foldlM_mergeStep_ok ops rest (c0, [c0.scale_factor], [])
      (hd c0 (List.mem_cons_self c0 rest)) (fun m hm => hd m (List.mem_cons_of_mem c0 hm))
    rw [hst2, except_bind_ok]
    rfl

/-! ### Invariants of per-scale candidate generation -/

lemma isOk_exists {α : Type} (r : Except PyErr α) (h : r.isOk = true) : ∃ a, r = .ok a := by
  cases r with
  | error e => simp [Except.isOk, Except.toBool] at h
  | ok a => exact ⟨a, rfl⟩

lemma except_pure {α : Type} (a : α) : (pure a : Except PyErr α) = Except.ok a := rfl

lemma globalMadOfSmooth_isOk (xs : List ℚ) (h : xs ≠ []) :
    ∃ g, globalMadOfSmooth xs = .ok g := by
  cases xs with
  | nil => exact absurd rfl h
  | cons a as =>
    simp only [globalMadOfSmooth, pymax, pymin, except_pure]
    split_ifs <;> exact ⟨_, rfl⟩

lemma detect_main_conf_mem (ops : FloatOps) (fb : List ℚ → ℚ) (x : List ℚ)
    (s e pw pow mw : ℕ) (k madm : ℚ) (rr : Bool) (n0 : ℤ) :
    0 ≤ (detect_main ops fb x s e pw pow mw k madm rr n0).2.confidence ∧
      (detect_main ops fb x s e pw pow mw k madm rr n0).2.confidence ≤ 1 :=
  ⟨confidenceOf_nonneg ops fb x s e pw pow mw n0, confidenceOf_le_one ops fb x s e pw pow mw n0⟩

lemma detect_main_dip_pos (ops : FloatOps) (x : List ℚ) (s e pw pow mw : ℕ)
    (k madm : ℚ) (rr : Bool) (n0 : ℤ) (hth : 0 < madm ∨ 0 < k)
    (hb : (detect_main ops (madFallbackNp ops) x s e pw pow mw k madm rr n0).1 = true) :
    0 < (detect_main ops (madFallbackNp ops) x s e pw pow mw k madm rr n0).2.depth := by
  have hdip : isDipB ops (madFallbackNp ops) x s e pw pow mw k madm rr n0 = true := hb
  rw [isDipB, Bool.and_eq_true] at hdip
  have hge : depthOf ops x s e pw pow mw n0 ≥
      thresholdOf (madFallbackNp ops) x s e pw pow mw k madm :=
    of_decide_eq_true hdip.1
  show 0 < depthOf ops x s e pw pow mw n0
  exact lt_of_lt_of_le (thresholdOf_np_pos ops x s e pw pow mw k madm hth) hge

lemma perScaleStep_eq (ops : FloatOps) (x x_smooth : List ℚ)
    (N pw pow mw : ℕ) (k madm : ℚ) (rr : Bool) (n0 : ℤ) (sf : ℕ)
    (acc : List Metrics) (t : ℕ × ℚ × ℚ) :
    perScaleStep ops x x_smooth N pw pow mw k madm rr n0 sf acc t =
      (detect_dip ops x ((expand_dip_boundaries x_smooth t.1
          (pymedian (mkContext x_smooth N pw pow t.1 t.2.1 t.2.2)) 0.3).1 : ℤ)
        ((expand_dip_boundaries x_smooth t.1
          (pymedian (mkContext x_smooth N pw pow t.1 t.2.1 t.2.2)) 0.3).2 : ℤ)
        pw pow (max mw (pyTrunc ((mw : ℚ) * ops.sqrt ((sf : ℕ) : ℚ))).toNat) k madm rr n0) >>=
        (fun r => match r with
          | (true, .full m) => pure (acc ++ [{ m with scale_factor := sf, detection_scale := detectionScaleLabel sf }])
          | _ => pure acc) := rfl

lemma perScaleStep_step (ops : FloatOps) (x x_smooth : List ℚ)
    (N pw pow mw : ℕ) (k madm : ℚ) (rr : Bool) (n0 : ℤ) (sf : ℕ)
    (acc res : List Metrics) (t : ℕ × ℚ × ℚ)
    (h : perScaleStep ops x x_smooth N pw pow mw k madm rr n0 sf acc t = .ok res) :
    res = acc ∨ ∃ b m, res = acc ++ [{ m with scale_factor := sf, detection_scale := detectionScaleLabel sf }] ∧ b = true ∧
      detect_dip ops x ((expand_dip_boundaries x_smooth t.1
          (pymedian (mkContext x_smooth N pw pow t.1 t.2.1 t.2.2)) 0.3).1 : ℤ)
        ((expand_dip_boundaries x_smooth t.1
          (pymedian (mkContext x_smooth N pw pow t.1 t.2.1 t.2.2)) 0.3).2 : ℤ)
        pw pow (max mw (pyTrunc ((mw : ℚ) * ops.sqrt ((sf : ℕ) : ℚ))).toNat) k madm rr n0 =
          .ok (b, .full m) := by
  rw [perScaleStep_eq] at h
  cases hr : detect_dip ops x ((expand_dip_boundaries x_smooth t.1
      (pymedian (mkContext x_smooth N pw pow t.1 t.2.1 t.2.2)) 0.3).1 : ℤ)
      ((expand_dip_boundaries x_smooth t.1
        (pymedian (mkContext x_smooth N pw pow t.1 t.2.1 t.2.2)) 0.3).2 : ℤ)
      pw pow (max mw (pyTrunc ((mw : ℚ) * ops.sqrt ((sf : ℕ) : ℚ))).toNat) k madm rr n0 with
  | error e =>
    rw [hr, except_bind_err] at h
    cases h
  | ok r =>
    rw [hr, except_bind_ok] at h
    obtain ⟨bres, v⟩ := r
    cases bres with
    | false =>
      cases v <;> exact Or.inl (by cases h; rfl)
    | true =>
      cases v with
      | widthFail w m' => exact Or.inl (by cases h; rfl)
      | full m =>
        refine Or.inr ⟨true, m, ?_, rfl, rfl⟩
        cases h
        rfl

lemma perScaleStep_isOk (ops : FloatOps) (x x_smooth : List ℚ)
    (N pw pow mw : ℕ) (k madm : ℚ) (rr : Bool) (n0 : ℤ) (sf : ℕ)
    (acc : List Metrics) (t : ℕ × ℚ × ℚ)
    (ht : t.1 < x_smooth.length) (hxs : x_smooth.length = x.length) (hn0 : n0 ≠ 0) :
    ∃ res, perScaleStep ops x x_smooth N pw pow mw k madm rr n0 sf acc t = .ok res := by
  obtain ⟨h1, h2, h3⟩ := expand_bounds x_smooth t.1
    (pymedian (mkContext x_smooth N pw pow t.1 t.2.1 t.2.2)) 0.3 ht
  have hb : ¬(((expand_dip_boundaries x_smooth t.1
      (pymedian (mkContext x_smooth N pw pow t.1 t.2.1 t.2.2)) 0.3).1 : ℤ) < 0 ∨
      (x.length : ℤ) ≤ ((expand_dip_boundaries x_smooth t.1
        (pymedian (mkContext x_smooth N pw pow t.1 t.2.1 t.2.2)) 0.3).2 : ℤ) ∨
      ((expand_dip_boundaries x_smooth t.1
        (pymedian (mkContext x_smooth N pw pow t.1 t.2.1 t.2.2)) 0.3).2 : ℤ) <
      ((expand_dip_boundaries x_smooth t.1
        (pymedian (mkContext x_smooth N pw pow t.1 t.2.1 t.2.2)) 0.3).1 : ℤ)) := by
    rw [hxs] at h3
    omega
  have hok : (detect_dip ops x ((expand_dip_boundaries x_smooth t.1
      (pymedian (mkContext x_smooth N pw pow t.1 t.2.1 t.2.2)) 0.3).1 : ℤ)
      ((expand_dip_boundaries x_smooth t.1
        (pymedian (mkContext x_smooth N pw pow t.1 t.2.1 t.2.2)) 0.3).2 : ℤ)
      pw pow (max mw (pyTrunc ((mw : ℚ) * ops.sqrt ((sf : ℕ) : ℚ))).toNat) k madm rr
      n0).isOk = true := by
    unfold detect_dip
    exact detect_core_isOk _ _ _ _ _ _ _ _ _ _ _ _ hn0 hb
  obtain ⟨r, hr⟩ := isOk_exists _ hok
  rw [perScaleStep_eq, hr, except_bind_ok]
  obtain ⟨bres, v⟩ := r
  cases bres <;> cases v <;> exact ⟨_, rfl⟩

lemma foldlM_perScaleStep_ok (ops : FloatOps) (x x_smooth : List ℚ)
    (N pw pow mw : ℕ) (k madm : ℚ) (rr : Bool) (n0 : ℤ) (sf : ℕ)
    (hxs : x_smooth.length = x.length) (hn0 : n0 ≠ 0) :
    ∀ (l : List (ℕ × ℚ × ℚ)) (acc : List Metrics),
      (∀ t ∈ l, t.1 < x_smooth.length) →
      ∃ res, l.foldlM (perScaleStep ops x x_smooth N pw pow mw k madm rr n0 sf) acc =
        .ok res := by
  intro l
  induction l with
  | nil => intro acc _; exact ⟨acc, rfl⟩
  | cons a as ih =>
    intro acc hl
    obtain ⟨r1, hr1⟩ := perScaleStep_isOk ops x x_smooth N pw pow mw k madm rr n0 sf acc a
      (hl a (List.mem_cons_self a as)) hxs hn0
    obtain ⟨res, hres⟩ := ih r1 (fun t ht => hl t (List.mem_cons_of_mem a ht))
    exact ⟨res, by rw [List.foldlM_cons, hr1, except_bind_ok]; exact hres⟩

lemma foldlM_perScaleStep_mem (ops : FloatOps) (x x_smooth : List ℚ)
    (N pw pow mw : ℕ) (k madm : ℚ) (rr : Bool) (n0 : ℤ) (sf : ℕ) (Q : Metrics → Prop)
    (hdet : ∀ (a b : ℤ) (smw : ℕ) (bres : Bool) (m : Metrics),
      detect_dip ops x a b pw pow smw k madm rr n0 = .ok (bres, .full m) → bres = true →
      Q { m with scale_factor := sf, detection_scale := detectionScaleLabel sf }) :
    ∀ (l : List (ℕ × ℚ × ℚ)) (acc res : List Metrics),
      l.foldlM (perScaleStep ops x x_smooth N pw pow mw k madm rr n0 sf) acc = .ok res →
      (∀ m ∈ acc, Q m) → ∀ m ∈ res, Q m := by
  intro l
  induction l with
  | nil =>
    intro acc res h hacc
    simp only [List.foldlM_nil] at h
    cases h
    exact hacc
  | cons a as ih =>
    intro acc res h hacc
    rw [List.foldlM_cons] at h
    cases h1 : perScaleStep ops x x_smooth N pw pow mw k madm rr n0 sf acc a with
    | error e => rw [h1, except_bind_err] at h; cases h
    | ok r1 =>
      rw [h1, except_bind_ok] at h
      refine ih r1 res h ?_
      rcases perScaleStep_step ops x x_smooth N pw pow mw k madm rr n0 sf acc r1 a h1 with
        hstep | ⟨b, m, hstep, hb, hdd⟩
      · rw [hstep]; exact hacc
      · rw [hstep]
        intro m2 hm2
        rw [List.mem_append] at hm2
        rcases hm2 with hm2 | hm2
        · exact hacc m2 hm2
        · simp only [List.mem_singleton] at hm2
          rw [hm2]
          exact hdet _ _ _ _ _ hdd hb

lemma perScale_eq (ops : FloatOps) (x : List ℚ) (N pw pow mw sw : ℕ)
    (mpf k madm : ℚ) (rr : Bool) (n0 : ℤ) (sf : ℕ) :
    perScale ops x N pw pow mw sw mpf k madm rr n0 sf =
      (globalMadOfSmooth (smoothSeries x (max 1 (sw * sf)))) >>= (fun global_mad =>
        if ops.sqrt ((sf : ℕ) : ℚ) = 0 then .error .zeroDiv
        else (find_local_minima (smoothSeries x (max 1 (sw * sf)))
            (mpf / ops.sqrt ((sf : ℕ) : ℚ) * global_mad) (min (10 * sf) (N / 4))).foldlM
          (perScaleStep ops x (smoothSeries x (max 1 (sw * sf))) N pw pow mw k madm rr n0 sf)
          []) := rfl

lemma perScale_isOk (ops : FloatOps) (x : List ℚ) (N pw pow mw sw : ℕ)
    (mpf k madm : ℚ) (rr : Bool) (n0 : ℤ) (sf : ℕ)
    (hx : x ≠ []) (hn0 : n0 ≠ 0) (hsq : ops.sqrt ((sf : ℕ) : ℚ) ≠ 0) :
    (perScale ops x N pw pow mw sw mpf k madm rr n0 sf).isOk = true := by
  have hxs : (smoothSeries x (max 1 (sw * sf))).length = x.length := smoothSeries_length _ _
  have hne : smoothSeries x (max 1 (sw * sf)) ≠ [] := by
    intro hc
    apply hx
    rw [hc] at hxs
    exact List.length_eq_zero.mp hxs.symm
  obtain ⟨g, hg⟩ := globalMadOfSmooth_isOk _ hne
  rw [perScale_eq, hg, except_bind_ok, if_neg hsq]
  obtain ⟨res, hres⟩ := foldlM_perScaleStep_ok ops x _ N pw pow mw k madm rr n0 sf hxs hn0 _ []
    (fun t ht => find_local_minima_idx_lt _ _ _ t ht)
  rw [hres]
  rfl

lemma perScale_mem (ops : FloatOps) (x : List ℚ) (N pw pow mw sw : ℕ)
    (mpf k madm : ℚ) (rr : Bool) (n0 : ℤ) (sf : ℕ) (Q : Metrics → Prop)
    (hdet : ∀ (a b : ℤ) (smw : ℕ) (bres : Bool) (m : Metrics),
      detect_dip ops x a b pw pow smw k madm rr n0 = .ok (bres, .full m) → bres = true →
      Q { m with scale_factor := sf, detection_scale := detectionScaleLabel sf })
    (res : List Metrics) (h : perScale ops x N pw pow mw sw mpf k madm rr n0 sf = .ok res) :
    ∀ m ∈ res, Q m := by
  rw [perScale_eq] at h
  cases hg : globalMadOfSmooth (smoothSeries x (max 1 (sw * sf))) with
  | error e => rw [hg, except_bind_err] at h; cases h
  | ok g =>
    rw [hg, except_bind_ok] at h
    by_cases hsq : ops.sqrt ((sf : ℕ) : ℚ) = 0
    · rw [if_pos hsq] at h; cases h
    · rw [if_neg hsq] at h
      exact foldlM_perScaleStep_mem ops x _ N pw pow mw k madm rr n0 sf Q hdet _ [] res h
        (by intro m hm; simp at hm)

lemma scaleStep_eq (ops : FloatOps) (x : List ℚ) (N pw pow mw sw : ℕ)
    (mpf k madm : ℚ) (rr : Bool) (n0 : ℤ) (acc : List Metrics) (sf : ℕ) :
    scaleStep ops x N pw pow mw sw mpf k madm rr n0 acc sf =
      perScale ops x N pw pow mw sw mpf k madm rr n0 sf >>= (fun cs => pure (acc ++ cs)) := rfl

lemma foldlM_scaleStep_ok (ops : FloatOps) (x : List ℚ) (N pw pow mw sw : ℕ)
    (mpf k madm : ℚ) (rr : Bool) (n0 : ℤ) (hx : x ≠ []) (hn0 : n0 ≠ 0) :
    ∀ (sfs : List ℕ) (acc : List Metrics),
      (∀ sf ∈ sfs, ops.sqrt ((sf : ℕ) : ℚ) ≠ 0) →
      ∃ res, sfs.foldlM (scaleStep ops x N pw pow mw sw mpf k madm rr n0) acc = .ok res := by
  intro sfs
  induction sfs with
  | nil => intro acc _; exact ⟨acc, rfl⟩
  | cons a as ih =>
    intro acc hs
    obtain ⟨cs, hcs⟩ := isOk_exists _ (perScale_isOk ops x N pw pow mw sw mpf k madm rr n0 a
      hx hn0 (hs a (List.mem_cons_self a as)))
    obtain ⟨res, hres⟩ := ih (acc ++ cs) (fun sf hsf => hs sf (List.mem_cons_of_mem a hsf))
    refine ⟨res, ?_⟩
    rw [List.foldlM_cons, scaleStep_eq, hcs, except_bind_ok, except_pure, except_bind_ok]
    exact hres

lemma foldlM_scaleStep_mem (ops : FloatOps) (x : List ℚ) (N pw pow mw sw : ℕ)
    (mpf k madm : ℚ) (rr : Bool) (n0 : ℤ) (Q : Metrics → Prop)
    (hdet : ∀ (sf : ℕ) (a b : ℤ) (smw : ℕ) (bres : Bool) (m : Metrics),
      detect_dip ops x a b pw pow smw k madm rr n0 = .ok (bres, .full m) → bres = true →
      Q { m with scale_factor := sf, detection_scale := detectionScaleLabel sf }) :
    ∀ (sfs : List ℕ) (acc res : List Metrics),
      sfs.foldlM (scaleStep ops x N pw pow mw sw mpf k madm rr n0) acc = .ok res →
      (∀ m ∈ acc, Q m) → ∀ m ∈ res, Q m := by
  intro sfs
  induction sfs with
  | nil =>
    intro acc res h hacc
    simp only [List.foldlM_nil] at h
    cases h
    exact hacc
  | cons a as ih =>
    intro acc res h hacc
    rw [List.foldlM_cons, scaleStep_eq] at h
    cases hp : perScale ops x N pw pow mw sw mpf k madm rr n0 a with
    | error e => rw [hp, except_bind_err, except_bind_err] at h; cases h
    | ok cs =>
      rw [hp, except_bind_ok, except_pure, except_bind_ok] at h
      refine ih (acc ++ cs) res h ?_
      intro m hm
      rw [List.mem_append] at hm
      rcases hm with hm | hm
      · exact hacc m hm
      · exact perScale_mem ops x N pw pow mw sw mpf k madm rr n0 a Q (hdet a) cs hp m hm

lemma find_all_dips_eq (ops : FloatOps) (x : List ℚ) (sw : ℕ) (mpf : ℚ)
    (pwo powo : Option ℕ) (mw : ℕ) (k madm : ℚ) (rr : Bool) (n0 : ℤ) (md : ℕ)
    (ms : Bool) (sfo : Option (List ℕ)) :
    find_all_dips ops x sw mpf pwo powo mw k madm rr n0 md ms sfo =
      if x.length < mw then .ok []
      else
        ((selectScaleFactors ms sfo x.length).foldlM
          (scaleStep ops x x.length (pwo.getD (max mw (min 50 (x.length / 4))))
            (powo.getD (max mw (min 50 (x.length / 4)))) mw sw mpf k madm rr n0) []) >>=
          (fun all_candidates =>
            if all_candidates.isEmpty then pure []
            else
              if 1 < all_candidates.length then
                mergeFold ops (sortBy (fun a b => decide (a.start ≤ b.start)) all_candidates) >>=
                  (fun merged =>
                    pure ((sortBy (fun a b => decide (b.confidence ≤ a.confidence))
                      merged).take md))
              else
                pure (all_candidates.map (fun c =>
                    { c with detected_at_scales := 1, scale_list := [c.scale_factor] })) >>=
                  (fun merged =>
                    pure ((sortBy (fun a b => decide (b.confidence ≤ a.confidence))
                      merged).take md))) := rfl

lemma find_all_dips_mem (ops : FloatOps) (x : List ℚ) (sw : ℕ) (mpf : ℚ)
    (pwo powo : Option ℕ) (mw : ℕ) (k madm : ℚ) (rr : Bool) (n0 : ℤ) (md : ℕ)
    (ms : Bool) (sfo : Option (List ℕ)) (Q : Metrics → Prop)
    (hfin : ∀ c l, Q c → Q (finalizeDip c l))
    (htag : ∀ c, Q c → Q { c with detected_at_scales := 1, scale_list := [c.scale_factor] })
    (hdet : ∀ (pw pow : ℕ) (sf : ℕ) (a b : ℤ) (smw : ℕ) (bres : Bool) (m : Metrics),
      detect_dip ops x a b pw pow smw k madm rr n0 = .ok (bres, .full m) → bres = true →
      Q { m with scale_factor := sf, detection_scale := detectionScaleLabel sf })
    (res : List Metrics)
    (h : find_all_dips ops x sw mpf pwo powo mw k madm rr n0 md ms sfo = .ok res) :
    ∀ m ∈ res, Q m := by
  rw [find_all_dips_eq] at h
  split_ifs at h with hN
  · cases h
    intro m hm
    simp at hm
  · cases hc : (selectScaleFactors ms sfo x.length).foldlM
        (scaleStep ops x x.length (pwo.getD (max mw (min 50 (x.length / 4))))
          (powo.getD (max mw (min 50 (x.length / 4)))) mw sw mpf k madm rr n0) [] with
    | error e => rw [hc, except_bind_err] at h; cases h
    | ok cands =>
      rw [hc, except_bind_ok] at h
      have hcands : ∀ m ∈ cands, Q m :=
        foldlM_scaleStep_mem ops x x.length _ _ mw sw mpf k madm rr n0 Q
          (fun sf => hdet _ _ sf) _ [] cands hc (by intro m hm; simp at hm)
      split_ifs at h with hemp hlen
      · cases h
        intro m hm
        simp at hm
      · cases hm : mergeFold ops (sortBy (fun a b => decide (a.start ≤ b.start)) cands) with
        | error e => rw [hm, except_bind_err] at h; cases h
        | ok merged =>
          rw [hm, except_bind_ok, except_pure] at h
          have hmerged : ∀ m ∈ merged, Q m :=
            mergeFold_mem ops Q hfin _ merged hm
              (fun m hm2 => hcands m ((mem_sortBy _ _ _).mp hm2))
          have hres : res =
              (sortBy (fun a b => decide (b.confidence ≤ a.confidence)) merged).take md := by
            cases h; rfl
          intro m hm2
          rw [hres] at hm2
          exact hmerged m ((mem_sortBy _ _ _).mp (List.take_subset _ _ hm2))
      · rw [except_pure, except_bind_ok, except_pure] at h
        have hres : res = (sortBy (fun a b => decide (b.confidence ≤ a.confidence))
            (cands.map (fun c =>
              { c with detected_at_scales := 1, scale_list := [c.scale_factor] }))).take md := by
          cases h; rfl
        intro m hm2
        rw [hres] at hm2
        have hmem := (mem_sortBy _ _ _).mp (List.take_subset _ _ hm2)
        rw [List.mem_map] at hmem
        obtain ⟨c, hcmem, rfl⟩ := hmem
        exact htag c (hcands c hcmem)

lemma find_all_dips_isOk (ops : FloatOps) (x : List ℚ) (sw : ℕ) (mpf : ℚ)
    (pwo powo : Option ℕ) (mw : ℕ) (k madm : ℚ) (rr : Bool) (n0 : ℤ) (md : ℕ)
    (ms : Bool) (sfo : Option (List ℕ))
    (hmw : 1 ≤ mw) (hn0 : n0 ≠ 0) (hth : 0 < madm ∨ 0 < k)
    (hsqs : ∀ sf ∈ selectScaleFactors ms sfo x.length, ops.sqrt ((sf : ℕ) : ℚ) ≠ 0) :
    (find_all_dips ops x sw mpf pwo powo mw k madm rr n0 md ms sfo).isOk = true := by
  rw [find_all_dips_eq]
  split_ifs with hN
  · rfl
  · have hx : x ≠ [] := by
      intro hcx
      rw [hcx] at hN
      simp at hN
      omega
    obtain ⟨cands, hc⟩ := foldlM_scaleStep_ok ops x x.length
      (pwo.getD (max mw (min 50 (x.length / 4)))) (powo.getD (max mw (min 50 (x.length / 4))))
      mw sw mpf k madm rr n0 hx hn0 _ [] hsqs
    rw [hc, except_bind_ok]
    have hdep : ∀ m ∈ cands, m.depth ≠ 0 := by
      refine foldlM_scaleStep_mem ops x x.length _ _ mw sw mpf k madm rr n0
        (fun m => m.depth ≠ 0) ?_ _ [] cands hc (by intro m hm; simp at hm)
      intro sf a b smw bres m hdd hb
      have hshape := detect_core_shape ops (madFallbackNp ops) x a b _ _ smw k madm rr n0
        bres m hdd
      have hpos := detect_main_dip_pos ops x a.toNat b.toNat _ _ smw k madm rr n0 hth
        (hshape.1 ▸ hb)
      show ({ m with scale_factor := sf, detection_scale := detectionScaleLabel sf } : Metrics).depth ≠ 0
      have hdeq : ({ m with scale_factor := sf, detection_scale := detectionScaleLabel sf } : Metrics).depth = m.depth := rfl
      rw [hdeq, hshape.2]
      exact ne_of_gt hpos
    split_ifs with hemp hlen
    · rfl
    · have hmok := mergeFold_isOk ops
        (sortBy (fun a b => decide (a.start ≤ b.start)) cands)
        (fun m hm => hdep m ((mem_sortBy _ _ _).mp hm))
      obtain ⟨merged, hmg⟩ := isOk_exists _ hmok
      rw [hmg, except_bind_ok]
      rfl
    · rw [except_pure, except_bind_ok]
      rfl

/-! ### Support for the accelerated/pure-path comparison and k-monotonicity -/

lemma localMadOf_congr (fb1 fb2 : List ℚ → ℚ) (x : List ℚ) (s e pw pow mw : ℕ)
    (h : mad (localCtxOf x s e pw pow mw) (localMedOf x s e pw pow mw) ≠ 0) :
    localMadOf fb1 x s e pw pow mw = localMadOf fb2 x s e pw pow mw := by
  simp only [localMadOf, resolveMad, if_neg h]

lemma detect_main_congr (ops : FloatOps) (fb1 fb2 : List ℚ → ℚ) (x : List ℚ)
    (s e pw pow mw : ℕ) (k madm : ℚ) (rr : Bool) (n0 : ℤ)
    (h : mad (localCtxOf x s e pw pow mw) (localMedOf x s e pw pow mw) ≠ 0) :
    detect_main ops fb1 x s e pw pow mw k madm rr n0 =
      detect_main ops fb2 x s e pw pow mw k madm rr n0 := by
  have hm := localMadOf_congr fb1 fb2 x s e pw pow mw h
  have hth : thresholdOf fb1 x s e pw pow mw k madm =
      thresholdOf fb2 x s e pw pow mw k madm := by
    simp only [thresholdOf, hm]
  have hpass : passesDepthOf ops fb1 x s e pw pow mw k madm n0 =
      passesDepthOf ops fb2 x s e pw pow mw k madm n0 := by
    simp only [passesDepthOf, hth]
  have hrec : recoveredOf ops fb1 x s e pw pow mw k madm rr n0 =
      recoveredOf ops fb2 x s e pw pow mw k madm rr n0 := by
    simp only [recoveredOf, hm, hth]
  have hconf : confidenceOf ops fb1 x s e pw pow mw n0 =
      confidenceOf ops fb2 x s e pw pow mw n0 := by
    simp only [confidenceOf, hm]
  have hdip : isDipB ops fb1 x s e pw pow mw k madm rr n0 =
      isDipB ops fb2 x s e pw pow mw k madm rr n0 := by
    simp only [isDipB, hpass, hrec]
  have hreason : reasonOf ops fb1 x s e pw pow mw k madm rr n0 =
      reasonOf ops fb2 x s e pw pow mw k madm rr n0 := by
    simp only [reasonOf, hpass, hrec]
  simp only [detect_main, hm, hth, hpass, hrec, hconf, hdip, hreason]

lemma detect_dip_eq_py (ops : FloatOps) (x : List ℚ) (s e : ℤ) (pw pow mw : ℕ)
    (k madm : ℚ) (rr : Bool) (n0 : ℤ)
    (h : mad (localCtxOf x s.toNat e.toNat pw pow mw)
      (localMedOf x s.toNat e.toNat pw pow mw) ≠ 0) :
    detect_dip ops x s e pw pow mw k madm rr n0 =
      detect_dip_py ops x s e pw pow mw k madm rr n0 := by
  unfold detect_dip detect_dip_py detect_dip_core
  simp only [detect_main_congr ops (madFallbackNp ops) madFallbackPy x s.toNat e.toNat
    pw pow mw k madm rr n0 h]

lemma thresholdOf_mono (ops : FloatOps) (x : List ℚ) (s e pw pow mw : ℕ)
    (k1 k2 madm : ℚ) (hk : k1 ≤ k2) :
    thresholdOf (madFallbackNp ops) x s e pw pow mw k1 madm ≤
      thresholdOf (madFallbackNp ops) x s e pw pow mw k2 madm := by
  unfold thresholdOf
  exact max_le_max le_rfl
    (mul_le_mul_of_nonneg_right hk (le_of_lt (localMadOf_np_pos ops x s e pw pow mw)))

lemma recoveredOf_norr (ops : FloatOps) (fb : List ℚ → ℚ) (x : List ℚ)
    (s e pw pow mw : ℕ) (k madm : ℚ) (n0 : ℤ) :
    recoveredOf ops fb x s e pw pow mw k madm false n0 = true := by
  simp [recoveredOf]

lemma detect_dip_norr_mono (ops : FloatOps) (x : List ℚ) (s e : ℤ) (pw pow mw : ℕ)
    (k1 k2 madm : ℚ) (n0 : ℤ) (hk : k1 ≤ k2)
    (h : isDipOf (detect_dip ops x s e pw pow mw k2 madm false n0) = true) :
    isDipOf (detect_dip ops x s e pw pow mw k1 madm false n0) = true := by
  unfold detect_dip detect_dip_core at h ⊢
  by_cases h1 : (s < 0 ∨ (x.length : ℤ) ≤ e ∨ e < s)
  · rw [if_pos h1] at h
    simp [isDipOf] at h
  · rw [if_neg h1] at h ⊢
    by_cases hw : e.toNat - s.toNat + 1 < mw
    · exfalso
      simp [isDipOf, hw] at h
    · by_cases hn : (n0 : ℚ) = 0
      · exfalso
        simp [isDipOf, hw, hn] at h
      · simp only [if_neg hw, if_neg hn, isDipOf] at h ⊢
        have hdip : isDipB ops (madFallbackNp ops) x s.toNat e.toNat pw pow mw k2 madm
            false n0 = true := h
        rw [isDipB, Bool.and_eq_true] at hdip
        show isDipB ops (madFallbackNp ops) x s.toNat e.toNat pw pow mw k1 madm false n0 = true
        rw [isDipB, Bool.and_eq_true]
        refine ⟨?_, recoveredOf_norr ops (madFallbackNp ops) x s.toNat e.toNat pw pow mw
          k1 madm n0⟩
        have hge : depthOf ops x s.toNat e.toNat pw pow mw n0 ≥
            thresholdOf (madFallbackNp ops) x s.toNat e.toNat pw pow mw k2 madm :=
          of_decide_eq_true hdip.1
        exact decide_eq_true (le_trans
          (thresholdOf_mono ops x s.toNat e.toNat pw pow mw k1 k2 madm hk) hge)

/-! ### Support for the ongoing-tail behaviour -/

lemma postCtx_tail (x : List ℚ) (pow : ℕ) (hx : 1 ≤ x.length) :
    postCtx x (x.length - 1) pow = [] := by
  simp only [postCtx]
  rw [show x.length - 1 + 1 = x.length by omega, List.drop_length, List.take_nil]

lemma detect_tail_ongoing_recovered (ops : FloatOps) (x : List ℚ) (s : ℤ) (pw pow mw : ℕ)
    (k madm : ℚ) (rr : Bool) (n0 : ℤ) :
    Option.all (fun m => m.is_ongoing && m.recovered)
      (metricsOfR (detect_dip ops x s ((x.length : ℤ) - 1) pw pow mw k madm rr n0)) = true := by
  unfold detect_dip detect_dip_core
  by_cases h1 : (s < 0 ∨ (x.length : ℤ) ≤ (x.length : ℤ) - 1 ∨ (x.length : ℤ) - 1 < s)
  · rw [if_pos h1]
    rfl
  · rw [if_neg h1]
    by_cases hw : ((x.length : ℤ) - 1).toNat - s.toNat + 1 < mw
    · simp only [if_pos hw]
      rfl
    · by_cases hn : (n0 : ℚ) = 0
      · simp only [if_neg hw, if_pos hn]
        rfl
      · simp only [if_neg hw, if_neg hn]
        have hlen : 1 ≤ x.length := by
          by_contra hc
          apply h1
          right
          left
          omega
        have he : ((x.length : ℤ) - 1).toNat = x.length - 1 := by omega
        have hpost : postCtx x (x.length - 1) pow = [] := postCtx_tail x pow hlen
        show Option.all _ (some (detect_main ops (madFallbackNp ops) x s.toNat
          (((x.length : ℤ) - 1).toNat) pw pow mw k madm rr n0).2) = true
        have hong : (detect_main ops (madFallbackNp ops) x s.toNat
            (((x.length : ℤ) - 1).toNat) pw pow mw k madm rr n0).2.is_ongoing = true := by
          show isOngoingOf x (((x.length : ℤ) - 1).toNat) pow = true
          rw [he]
          simp [isOngoingOf, hpost]
        have hrec : (detect_main ops (madFallbackNp ops) x s.toNat
            (((x.length : ℤ) - 1).toNat) pw pow mw k madm rr n0).2.recovered = true := by
          show recoveredOf ops (madFallbackNp ops) x s.toNat (((x.length : ℤ) - 1).toNat)
            pw pow mw k madm rr n0 = true
          rw [he]
          simp [recoveredOf, hpost]
        rw [he] at hong hrec
        simp [Option.all, hong, hrec]

/-! ## The claims

Each claim of the specification is settled by one theorem below; a refuted
claim additionally gets a concrete counterexample evaluated on the embedding,
and the accompanying theorem states the amended property. -/

/-- The depth invariant of a metrics record: `depth = baseline - seg_min`,
and `is_dip` implies `depth ≥ depth_threshold`. -/
def depthInvariant (m : Metrics) : Bool :=
  decide (m.depth = m.baseline - m.seg_min) &&
    (!m.is_dip || decide (m.depth ≥ m.depth_threshold))

/-- `confidence ∈ [0, 1]` for a metrics record. -/
def confInRange (m : Metrics) : Bool :=
  decide (0 ≤ m.confidence) && decide (m.confidence ≤ 1)

lemma confInRange_iff (m : Metrics) :
    confInRange m = true ↔ (0 ≤ m.confidence ∧ m.confidence ≤ 1) := by
  simp [confInRange]

lemma depthInvariant_main (ops : FloatOps) (fb : List ℚ → ℚ) (x : List ℚ)
    (s e pw pow mw : ℕ) (k madm : ℚ) (rr : Bool) (n0 : ℤ) :
    depthInvariant (detect_main ops fb x s e pw pow mw k madm rr n0).2 = true := by
  rw [depthInvariant]
  have h1 : decide ((detect_main ops fb x s e pw pow mw k madm rr n0).2.depth =
      (detect_main ops fb x s e pw pow mw k madm rr n0).2.baseline -
      (detect_main ops fb x s e pw pow mw k madm rr n0).2.seg_min) = true :=
    decide_eq_true rfl
  have hd : decide ((detect_main ops fb x s e pw pow mw k madm rr n0).2.depth ≥
      (detect_main ops fb x s e pw pow mw k madm rr n0).2.depth_threshold) =
      passesDepthOf ops fb x s e pw pow mw k madm n0 := rfl
  have hip : (detect_main ops fb x s e pw pow mw k madm rr n0).2.is_dip =
      (passesDepthOf ops fb x s e pw pow mw k madm n0 &&
        recoveredOf ops fb x s e pw pow mw k madm rr n0) := rfl
  rw [h1, hd, hip]
  cases passesDepthOf ops fb x s e pw pow mw k madm n0 <;>
    cases recoveredOf ops fb x s e pw pow mw k madm rr n0 <;> rfl

lemma confInRange_main (ops : FloatOps) (fb : List ℚ → ℚ) (x : List ℚ)
    (s e pw pow mw : ℕ) (k madm : ℚ) (rr : Bool) (n0 : ℤ) :
    confInRange (detect_main ops fb x s e pw pow mw k madm rr n0).2 = true := by
  rw [confInRange_iff]
  exact ⟨confidenceOf_nonneg ops fb x s e pw pow mw n0,
    confidenceOf_le_one ops fb x s e pw pow mw n0⟩

lemma confInRange_finalize (c : Metrics) (l : List ℕ) (h : confInRange c = true) :
    confInRange (finalizeDip c l) = true := by
  rw [confInRange_iff] at h ⊢
  exact finalizeDip_conf c l h.1 h.2

/-- Transport of an `Option.all` goal over `metricsOfR` to the `detect_main`
record that any full result consists of. -/
lemma metricsOfR_all (ops : FloatOps) (fb : List ℚ → ℚ) (x : List ℚ) (s e : ℤ)
    (pw pow mw : ℕ) (k madm : ℚ) (rr : Bool) (n0 : ℤ) (p : Metrics → Bool)
    (hp : ∀ s' e' : ℕ, p (detect_main ops fb x s' e' pw pow mw k madm rr n0).2 = true) :
    Option.all p (metricsOfR (detect_dip_core ops fb x s e pw pow mw k madm rr n0)) = true := by
  cases hr : detect_dip_core ops fb x s e pw pow mw k madm rr n0 with
  | error err => rfl
  | ok pr =>
    obtain ⟨b, v⟩ := pr
    cases v with
    | widthFail w m0 => rfl
    | full m =>
      have hs := detect_core_shape ops fb x s e pw pow mw k madm rr n0 b m hr
      show p m = true
      rw [hs.2]
      exact hp s.toNat e.toNat

/-- Claim C1: for every series, every segment and all option values, any full
metrics record returned by `detect_dip` satisfies
`depth = baseline - seg_min`, and whenever `is_dip` is true it also satisfies
`depth ≥ depth_threshold`. -/
theorem c1_depth_invariant (ops : FloatOps) (x : List ℚ) (s e : ℤ) (pw pow mw : ℕ)
    (k madm : ℚ) (rr : Bool) (n0 : ℤ) :
    Option.all depthInvariant
      (metricsOfR (detect_dip ops x s e pw pow mw k madm rr n0)) = true :=
  metricsOfR_all ops (madFallbackNp ops) x s e pw pow mw k madm rr n0 depthInvariant
    (fun s' e' => depthInvariant_main ops (madFallbackNp ops) x s' e' pw pow mw k madm rr n0)

/-- Claim C2: the `confidence` field of every record produced by `detect_dip`
and of every record returned by `find_all_dips` (including after the
cross-scale confidence boost of the merge) lies in the closed interval
`[0, 1]`. -/
theorem c2_confidence_bounds (ops : FloatOps) (x : List ℚ) (s e : ℤ) (pw pow mw : ℕ)
    (k madm : ℚ) (rr : Bool) (n0 : ℤ) (sw : ℕ) (mpf : ℚ) (pwo powo : Option ℕ)
    (md : ℕ) (ms : Bool) (sfo : Option (List ℕ)) :
    Option.all confInRange
      (metricsOfR (detect_dip ops x s e pw pow mw k madm rr n0)) = true ∧
    (okList (find_all_dips ops x sw mpf pwo powo mw k madm rr n0 md ms sfo)).all
      confInRange = true := by
  constructor
  · exact metricsOfR_all ops (madFallbackNp ops) x s e pw pow mw k madm rr n0 confInRange
      (fun s' e' => confInRange_main ops (madFallbackNp ops) x s' e' pw pow mw k madm rr n0)
  · cases hr : find_all_dips ops x sw mpf pwo powo mw k madm rr n0 md ms sfo with
    | error err => rfl
    | ok res =>
      show res.all confInRange = true
      rw [List.all_eq_true]
      intro m hm
      refine find_all_dips_mem ops x sw mpf pwo powo mw k madm rr n0 md ms sfo
        (fun m => confInRange m = true)
        (fun c l hq => confInRange_finalize c l hq) ?_ ?_ res hr m hm
      · intro c hq
        exact hq
      · intro pw' pow' sf a b smw bres m' hdd hb
        have hs := detect_core_shape ops (madFallbackNp ops) x a b pw' pow' smw k madm rr n0
          bres m' hdd
        have hdeq : confInRange { m' with scale_factor := sf, detection_scale := detectionScaleLabel sf } = confInRange m' := rfl
        rw [hdeq, hs.2]
        exact confInRange_main ops (madFallbackNp ops) x a.toNat b.toNat pw' pow' smw k madm rr n0

/-- Claim C3 counterexample: the bounds `start = 0`, `end = 2` on a series of
length 3 are valid, yet `detect_dip` raises — a `ZeroDivisionError` from
`alpha = 1 - exp(-N / float(n0))` — when the option `n0 = 0` is passed, so the
invalid-argument condition is not the only failure. -/
theorem c3_cex :
    errOf (detect_dip ops0 [1, 2, 3] 0 2 50 50 2 (1/4) 0 true 0) = some PyErr.zeroDiv ∧
      ¬((0 : ℤ) < 0 ∨ (([1, 2, 3] : List ℚ).length : ℤ) ≤ 2 ∨ (2 : ℤ) < 0) := by
  constructor
  · have ht0 : (0 : ℤ).toNat = 0 := rfl
    have ht2 : (2 : ℤ).toNat = 2 := rfl
    norm_num [detect_dip, detect_dip_core, errOf, ht0, ht2]
  · decide

/-- Claim C3 (amended): `detect_dip` raises the invalid-argument `ValueError`
exactly when `start < 0`, `end ≥ N` or `end < start`; for all other
`(start, end)` it returns normally provided the remaining options avoid the
separate division-by-zero failure, i.e. provided `n0 ≠ 0`. -/
theorem c3_amended (ops : FloatOps) (x : List ℚ) (s e : ℤ) (pw pow mw : ℕ)
    (k madm : ℚ) (rr : Bool) (n0 : ℤ) :
    (errOf (detect_dip ops x s e pw pow mw k madm rr n0) = some PyErr.valueError ↔
      (s < 0 ∨ (x.length : ℤ) ≤ e ∨ e < s)) ∧
    (n0 ≠ 0 → ¬(s < 0 ∨ (x.length : ℤ) ≤ e ∨ e < s) →
      (detect_dip ops x s e pw pow mw k madm rr n0).isOk = true) :=
  ⟨detect_core_err_iff ops (madFallbackNp ops) x s e pw pow mw k madm rr n0,
    fun hn hb => detect_core_isOk ops (madFallbackNp ops) x s e pw pow mw k madm rr n0 hn hb⟩

theorem c3_amended_witness :
    (errOf (detect_dip ops1 [1, 2, 3] 0 1 50 50 2 (1/4) 0 true 200) = some PyErr.valueError ↔
      ((0 : ℤ) < 0 ∨ (([1, 2, 3] : List ℚ).length : ℤ) ≤ 1 ∨ (1 : ℤ) < 0)) ∧
    (detect_dip ops1 [1, 2, 3] 0 1 50 50 2 (1/4) 0 true 200).isOk = true := by
  have h := c3_amended ops1 [1, 2, 3] 0 1 50 50 2 (1/4) 0 true 200
  exact ⟨h.1, h.2 (by decide) (by decide)⟩

/-- Claim C5 counterexample: with `multi_scale` on and no explicit factors, a
series of length 10 (so neither `N > 200` nor `N > 50`) gets the scale factors
`[1, 2]`, not the claimed `{1}`. -/
theorem c5_cex :
    selectScaleFactors true none 10 = [1, 2] ∧ ([1, 2] : List ℕ) ≠ [1] := by
  constructor
  · rfl
  · decide

/-- Claim C5 (amended): when `multi_scale` is set and no explicit
`scale_factors` are given, `find_all_dips` selects `[1, 2, 4, 8]` for
`N > 200`, `[1, 2, 4]` for `N > 50`, and `[1, 2]` otherwise;
`multi_scale = False` forces `[1]`. -/
theorem c5_amended (ms : Bool) (sfo : Option (List ℕ)) (N : ℕ) :
    (ms = true → sfo = none →
      selectScaleFactors ms sfo N =
        if 200 < N then [1, 2, 4, 8] else if 50 < N then [1, 2, 4] else [1, 2]) ∧
    (ms = false → selectScaleFactors ms sfo N = [1]) := by
  constructor
  · intro hms hsfo
    rw [selectScaleFactors, if_pos ⟨hms, hsfo⟩]
  · intro hms
    cases hsfo : sfo with
    | none => simp [selectScaleFactors, hms]
    | some l => simp [selectScaleFactors, hms]

theorem c5_amended_witness :
    selectScaleFactors true none 300 = [1, 2, 4, 8] ∧
      selectScaleFactors false none 300 = [1] := by
  have h1 := c5_amended true none 300
  have h2 := c5_amended false none 300
  refine ⟨?_, h2.2 rfl⟩
  rw [h1.1 rfl rfl]
  norm_num

/-- A 14-sample series with a sharp dip at indices 6–8 and a shallow tail used
to separate the two recovery branches of `detect_dip`.  Its local and global
trimmed means around the segment `[6, 8]` coincide (both `22/3`), so the
baseline is independent of the `alpha` blend (and hence of `exp`). -/
def s14 : List ℚ := [10, 10, 10, 10, 10, 10, 4, 0, 4, 1, 1, 5, 5, 5]

/-- Claim C6 counterexample: on `s14` with segment `[6, 8]`, `detect_dip`
rejects at `k = 3/5` (the low threshold puts `depth/depth_threshold > 3`,
sending the recovery check into the extended-window branch, which fails) but
accepts at the larger `k = 1` (the ratio drops below 3 and the
monotonic-improvement fallback of the standard branch succeeds) — increasing
`k` turned a rejected segment into an accepted one. -/
theorem c6_cex :
    isDipOf (detect_dip ops0 s14 6 8 50 50 2 (3/5) 0 true 200) = false ∧
    isDipOf (detect_dip ops0 s14 6 8 50 50 2 1 0 true 200) = true ∧
    (3/5 : ℚ) < 1 := by
  have hpre : preCtx s14 6 50 = [10, 10, 10, 10, 10, 10] := by
    norm_num [s14, preCtx]
  have hpost : postCtx s14 8 50 = [1, 1, 5, 5, 5] := by
    norm_num [s14, postCtx]
  have hong : isOngoingOf s14 8 50 = false := by
    norm_num [s14, isOngoingOf, postCtx]
  have hctx : localCtxOf s14 6 8 50 50 2 = [10, 10, 10, 10, 10, 10, 1, 1, 5, 5, 5] := by
    norm_num [localCtxOf, localCtx, hpre, hpost, hong]
  have hmed : localMedOf s14 6 8 50 50 2 = 22/3 := by
    rw [localMedOf, hctx]
    norm_num [trimmed_mean, sortQ, sortBy, insertBy, pyTrunc, List.getD]
  have hmad : localMadOf (madFallbackNp ops0) s14 6 8 50 50 2 = 8/3 := by
    rw [localMadOf, hctx, hmed]
    norm_num [resolveMad, mad, pymedian, sortQ, sortBy, insertBy, List.getD,
      abs_of_nonneg, abs_of_nonpos]
  have hg : globalMedOf s14 6 8 = 22/3 := by
    norm_num [s14, globalMedOf, globalCtxOf, trimmed_mean, sortQ, sortBy, insertBy,
      pyTrunc, List.getD]
  have hbase : baselineOf ops0 s14 6 8 50 50 2 200 = 22/3 := by
    rw [baselineOf]
    norm_num [hmed, hg, hong, alphaOf, ops0]
  have hsegmin : segMinOf s14 6 8 = 0 := by
    norm_num [s14, segMinOf, segmentOf, pymin, List.foldl]
  have hdepth : depthOf ops0 s14 6 8 50 50 2 200 = 22/3 := by
    rw [depthOf, hbase, hsegmin]
    norm_num
  have hthr1 : thresholdOf (madFallbackNp ops0) s14 6 8 50 50 2 (3/5) 0 = 8/5 := by
    rw [thresholdOf, hmad]
    norm_num
  have hthr2 : thresholdOf (madFallbackNp ops0) s14 6 8 50 50 2 1 0 = 8/3 := by
    rw [thresholdOf, hmad]
    norm_num
  have hext : (s14.drop 9).take 100 = [1, 1, 5, 5, 5] := rfl
  have hrec1 : recoveredOf ops0 (madFallbackNp ops0) s14 6 8 50 50 2 (3/5) 0 true 200 = false := by
    rw [recoveredOf, hpost, hbase, hmad, hdepth, hthr1]
    norm_num [hext, hsegmin, abs_of_nonneg, abs_of_nonpos]
  have hrec2 : recoveredOf ops0 (madFallbackNp ops0) s14 6 8 50 50 2 1 0 true 200 = true := by
    rw [recoveredOf, hpost, hbase, hmad, hdepth, hthr2]
    norm_num [hext, hsegmin, abs_of_nonneg, abs_of_nonpos]
  have ht6 : Int.toNat 6 = 6 := rfl
  have ht8 : Int.toNat 8 = 8 := rfl
  have hlen : s14.length = 14 := rfl
  refine ⟨?_, ?_, by norm_num⟩
  · norm_num [detect_dip, detect_dip_core, isDipOf, detect_main, isDipB, passesDepthOf,
      hlen, ht6, ht8, hdepth, hthr1, hrec1]
  · norm_num [detect_dip, detect_dip_core, isDipOf, detect_main, isDipB, passesDepthOf,
      hlen, ht6, ht8, hdepth, hthr2, hrec2]

/-- Claim C6 (amended): `depth_threshold` is non-decreasing in `k` (that part
of the claim holds unconditionally), and with the recovery requirement
disabled (`require_recovery = False`, which removes the `k`-dependent recovery
branches) increasing `k` can only turn an accepted dip into a rejected one,
never the reverse. -/
theorem c6_amended (ops : FloatOps) (x : List ℚ) (s e : ℤ) (pw pow mw : ℕ)
    (k1 k2 madm : ℚ) (n0 : ℤ) (hk : k1 ≤ k2) :
    thresholdOf (madFallbackNp ops) x s.toNat e.toNat pw pow mw k1 madm ≤
      thresholdOf (madFallbackNp ops) x s.toNat e.toNat pw pow mw k2 madm ∧
    (isDipOf (detect_dip ops x s e pw pow mw k2 madm false n0) = true →
      isDipOf (detect_dip ops x s e pw pow mw k1 madm false n0) = true) :=
  ⟨thresholdOf_mono ops x s.toNat e.toNat pw pow mw k1 k2 madm hk,
    fun h => detect_dip_norr_mono ops x s e pw pow mw k1 k2 madm n0 hk h⟩

theorem c6_amended_witness :
    thresholdOf (madFallbackNp ops0) [1, 2, 3] (0 : ℤ).toNat (2 : ℤ).toNat 50 50 2 0 0 ≤
      thresholdOf (madFallbackNp ops0) [1, 2, 3] (0 : ℤ).toNat (2 : ℤ).toNat 50 50 2 1 0 ∧
    (isDipOf (detect_dip ops0 [1, 2, 3] 0 2 50 50 2 1 0 false 200) = true →
      isDipOf (detect_dip ops0 [1, 2, 3] 0 2 50 50 2 0 0 false 200) = true) :=
  c6_amended ops0 [1, 2, 3] 0 2 50 50 2 0 1 0 200 (by norm_num)

/-- An 11-sample series whose segment `[6, 8]` ends within 2 samples of the
series end (so it is ongoing) while two post samples still exist. -/
def s11 : List ℚ := [10, 10, 10, 10, 10, 10, 4, 0, 4, 1, 1]

/-- Claim C7 counterexample: the segment `[6, 8]` of `s11` is ongoing
(`end = 8 ≥ N - 3`), yet because the post context `[1, 1]` is nonempty the
recovery check still runs and fails, so `detect_dip` returns
`is_ongoing = True` together with `recovered = False` — being ongoing does not
make recovery trivially satisfied. -/
theorem c7_cex :
    Option.map (fun m => (m.is_ongoing, m.recovered))
      (metricsOfR (detect_dip ops0 s11 6 8 50 50 2 (1/4) 0 true 200)) =
      some (true, false) := by
  have hpre2 : preCtx s11 6 50 = [10, 10, 10, 10, 10, 10] := by
    norm_num [s11, preCtx]
  have hpost : postCtx s11 8 50 = [1, 1] := by
    norm_num [s11, postCtx]
  have hong : isOngoingOf s11 8 50 = true := by
    norm_num [s11, isOngoingOf, postCtx]
  have hctx : localCtxOf s11 6 8 50 50 2 = [10, 10, 10, 10, 10, 10] := by
    norm_num [localCtxOf, localCtx, hpre2, hpost, hong]
  have hmed : localMedOf s11 6 8 50 50 2 = 10 := by
    rw [localMedOf, hctx]
    norm_num [trimmed_mean, sortQ, sortBy, insertBy, pyTrunc, List.getD]
  have htn3 : Int.toNat 3 = 3 := rfl
  have hc54 : (⌈(5/4 : ℚ)⌉).toNat = 2 := by
    rw [show (⌈(5/4 : ℚ)⌉ : ℤ) = 2 by rw [Int.ceil_eq_iff] <;> norm_num]
    rfl
  have hc154 : (⌈(15/4 : ℚ)⌉).toNat = 4 := by
    rw [show (⌈(15/4 : ℚ)⌉ : ℤ) = 4 by rw [Int.ceil_eq_iff] <;> norm_num]
    rfl
  have hmad : localMadOf (madFallbackNp ops0) s11 6 8 50 50 2 = 1/1000000000 := by
    rw [localMadOf, hctx, hmed]
    norm_num [resolveMad, mad, pymedian, madFallbackNp, pyquantile, pystd, ops0,
      htn3, hc54, hc154, sortQ, sortBy, insertBy, List.getD, abs_of_nonneg, abs_of_nonpos]
  have hg : globalMedOf s11 6 8 = 17/2 := by
    norm_num [s11, globalMedOf, globalCtxOf, trimmed_mean, sortQ, sortBy, insertBy,
      pyTrunc, List.getD]
  have hbase : baselineOf ops0 s11 6 8 50 50 2 200 = 10 := by
    rw [baselineOf]
    norm_num [hmed, hg, hong]
  have hsegmin : segMinOf s11 6 8 = 0 := by
    norm_num [s11, segMinOf, segmentOf, pymin, List.foldl]
  have hdepth : depthOf ops0 s11 6 8 50 50 2 200 = 10 := by
    rw [depthOf, hbase, hsegmin]
    norm_num
  have hthr : thresholdOf (madFallbackNp ops0) s11 6 8 50 50 2 (1/4) 0 = 1/4000000000 := by
    rw [thresholdOf, hmad]
    norm_num
  have hext : (s11.drop 9).take 100 = [1, 1] := rfl
  have hrec : recoveredOf ops0 (madFallbackNp ops0) s11 6 8 50 50 2 (1/4) 0 true 200 = false := by
    rw [recoveredOf, hpost, hbase, hmad, hdepth, hthr]
    norm_num [hext, hsegmin, abs_of_nonneg, abs_of_nonpos]
  have hlen : s11.length = 11 := rfl
  have ht6 : Int.toNat 6 = 6 := rfl
  have ht8 : Int.toNat 8 = 8 := rfl
  norm_num [detect_dip, detect_dip_core, metricsOfR, detect_main, Option.map,
    hlen, ht6, ht8, hong, hrec]

/-- Claim C7 (amended): for every segment reaching the last sample of the
series (where the post context really is empty), `detect_dip` sets both
`is_ongoing` and `recovered`; in particular Scenario D holds: on
`[5, 5, 5, 4, 3, 2]` with segment `[3, 5]` the record has `is_ongoing = True`
and `recovered = True`.  (An ongoing segment with nonempty post context is
still subjected to the recovery check.) -/
theorem c7_amended (ops : FloatOps) (x : List ℚ) (s : ℤ) (pw pow mw : ℕ)
    (k madm : ℚ) (rr : Bool) (n0 : ℤ) :
    Option.all (fun m => m.is_ongoing && m.recovered)
      (metricsOfR (detect_dip ops x s ((x.length : ℤ) - 1) pw pow mw k madm rr n0)) = true ∧
    Option.map (fun m => (m.is_ongoing, m.recovered))
      (metricsOfR (detect_dip ops0 [5, 5, 5, 4, 3, 2] 3 5 50 50 2 (1/4) 0 true 200)) =
      some (true, true) := by
  constructor
  · exact detect_tail_ongoing_recovered ops x s pw pow mw k madm rr n0
  · have ht3 : Int.toNat 3 = 3 := rfl
    have ht5 : Int.toNat 5 = 5 := rfl
    have hong2 : isOngoingOf [5, 5, 5, 4, 3, 2] 5 50 = true := by
      norm_num [isOngoingOf, postCtx]
    have hrec2 : recoveredOf ops0 (madFallbackNp ops0) [5, 5, 5, 4, 3, 2] 3 5 50 50 2
        (1/4) 0 true 200 = true := by
      rw [recoveredOf]
      norm_num [postCtx]
    norm_num [detect_dip, detect_dip_core, metricsOfR, detect_main, Option.map,
      ht3, ht5, hong2, hrec2]

/-- Claim C8 counterexample: a call that passes the bounds precondition but
fails the width gate (`width = 1 < min_width = 2`) returns only the short
`{reason, width, min_width}` record, not the full metrics record — no full
record is available for inspection. -/
theorem c8_cex :
    detect_dip ops0 [1, 2, 3] 1 1 50 50 2 (1/4) 0 true 200 =
      .ok (false, DipVerdict.widthFail 1 2) ∧
    metricsOfR (detect_dip ops0 [1, 2, 3] 1 1 50 50 2 (1/4) 0 true 200) = none := by
  constructor
  · rfl
  · rfl

/-- Claim C8 (amended): `detect_dip` returns the full metrics record — with
every field of the data-model Candidate record — regardless of the verdict,
for every call that passes the bounds precondition, *passes the width gate*,
and avoids the `n0 = 0` division failure; a width-gate failure instead yields
only the short `{reason, width, min_width}` record. -/
theorem c8_amended (ops : FloatOps) (x : List ℚ) (s e : ℤ) (pw pow mw : ℕ)
    (k madm : ℚ) (rr : Bool) (n0 : ℤ)
    (hb : ¬(s < 0 ∨ (x.length : ℤ) ≤ e ∨ e < s))
    (hw : mw ≤ e.toNat - s.toNat + 1) (hn0 : n0 ≠ 0) :
    (metricsOfR (detect_dip ops x s e pw pow mw k madm rr n0)).isSome = true := by
  show (metricsOfR (detect_dip_core ops (madFallbackNp ops) x s e pw pow mw k madm rr n0)).isSome
    = true
  rw [detect_core_full ops (madFallbackNp ops) x s e pw pow mw k madm rr n0 hb hw hn0]
  rfl

theorem c8_amended_witness :
    (metricsOfR (detect_dip ops0 [1, 2, 3] 0 2 50 50 2 (1/4) 0 true 200)).isSome = true :=
  c8_amended ops0 [1, 2, 3] 0 2 50 50 2 (1/4) 0 true 200 (by decide) (by decide) (by decide)

/-- A 6-sample series whose segment `[3, 4]` leaves the local context
`[0, 0, 0, 8]`: its trimmed mean is `0`, the MAD around it is exactly `0`,
and the interquartile range is positive — so the two zero-MAD fallbacks (the
accelerated IQR path and the pure mean-absolute-deviation path) both fire and
produce different scale estimates. -/
def s6 : List ℚ := [0, 0, 0, 9, 9, 8]

/-- Claim C9 counterexample: on `s6` with segment `[3, 4]`, the accelerated
(`numpy`) path resolves `local_mad` through the IQR fallback to `2000/1349`
(`= (IQR = 2)/1.349`), while the pure-Python path resolves it through the
mean-absolute-deviation fallback to `3` — the two code paths do not compute
identical results. -/
theorem c9_cex :
    Option.map (fun m => m.local_mad)
      (metricsOfR (detect_dip ops0 s6 3 4 50 50 2 (1/4) 0 true 200)) =
      some (2000/1349) ∧
    Option.map (fun m => m.local_mad)
      (metricsOfR (detect_dip_py ops0 s6 3 4 50 50 2 (1/4) 0 true 200)) = some 3 ∧
    (2000/1349 : ℚ) ≠ 3 := by
  have hpre : preCtx s6 3 50 = [0, 0, 0] := by
    norm_num [s6, preCtx]
  have hpost : postCtx s6 4 50 = [8] := by
    norm_num [s6, postCtx]
  have hong : isOngoingOf s6 4 50 = true := by
    norm_num [s6, isOngoingOf, postCtx]
  have hctx : localCtxOf s6 3 4 50 50 2 = [0, 0, 0, 8] := by
    norm_num [s6, localCtxOf, localCtx, preCtx, postCtx, isOngoingOf]
  have hmed : localMedOf s6 3 4 50 50 2 = 0 := by
    rw [localMedOf, hctx]
    norm_num [trimmed_mean, sortQ, sortBy, insertBy, pyTrunc, List.getD]
  have htn2 : Int.toNat 2 = 2 := rfl
  have hc34 : (⌈(3/4 : ℚ)⌉).toNat = 1 := by
    rw [show (⌈(3/4 : ℚ)⌉ : ℤ) = 1 by rw [Int.ceil_eq_iff] <;> norm_num]
    rfl
  have hc94 : (⌈(9/4 : ℚ)⌉).toNat = 3 := by
    rw [show (⌈(9/4 : ℚ)⌉ : ℤ) = 3 by rw [Int.ceil_eq_iff] <;> norm_num]
    rfl
  have hmadnp : localMadOf (madFallbackNp ops0) s6 3 4 50 50 2 = 2000/1349 := by
    rw [localMadOf, hctx, hmed]
    norm_num [resolveMad, mad, pymedian, madFallbackNp, pyquantile, pystd, ops0,
      htn2, hc34, hc94, sortQ, sortBy, insertBy, List.getD, abs_of_nonneg, abs_of_nonpos]
  have hmadpy : localMadOf madFallbackPy s6 3 4 50 50 2 = 3 := by
    rw [localMadOf, hctx, hmed]
    norm_num [resolveMad, mad, pymedian, madFallbackPy, sortQ, sortBy, insertBy,
      List.getD, abs_of_nonneg, abs_of_nonpos]
  have hlen : s6.length = 6 := rfl
  have ht3 : Int.toNat 3 = 3 := rfl
  have ht4 : Int.toNat 4 = 4 := rfl
  refine ⟨?_, ?_, by norm_num⟩
  · norm_num [detect_dip, detect_dip_core, metricsOfR, detect_main, Option.map,
      hlen, ht3, ht4, hmadnp]
  · norm_num [detect_dip_py, detect_dip_core, metricsOfR, detect_main, Option.map,
      hlen, ht3, ht4, hmadpy]

/-- Claim C9 (amended): whenever the MAD of the local context is nonzero — so
the platform-dependent zero-MAD fallback never fires — the accelerated and the
pure-Python paths of `detect_dip` return identical results (verdict and every
metric).  The surviving divergences are confined to the zero-MAD fallback
(and, inside `find_all_dips`, to the smoothing step the pure path skips). -/
theorem c9_amended (ops : FloatOps) (x : List ℚ) (s e : ℤ) (pw pow mw : ℕ)
    (k madm : ℚ) (rr : Bool) (n0 : ℤ)
    (h : mad (localCtxOf x s.toNat e.toNat pw pow mw)
      (localMedOf x s.toNat e.toNat pw pow mw) ≠ 0) :
    detect_dip ops x s e pw pow mw k madm rr n0 =
      detect_dip_py ops x s e pw pow mw k madm rr n0 :=
  detect_dip_eq_py ops x s e pw pow mw k madm rr n0 h

theorem c9_amended_witness :
    detect_dip ops0 s14 6 8 50 50 2 (1/4) 0 true 200 =
      detect_dip_py ops0 s14 6 8 50 50 2 (1/4) 0 true 200 := by
  apply c9_amended
  have ht6 : Int.toNat 6 = 6 := rfl
  have ht8 : Int.toNat 8 = 8 := rfl
  rw [ht6, ht8]
  have hctx : localCtxOf s14 6 8 50 50 2 = [10, 10, 10, 10, 10, 10, 1, 1, 5, 5, 5] := by
    norm_num [s14, localCtxOf, localCtx, preCtx, postCtx, isOngoingOf]
  have hmed : localMedOf s14 6 8 50 50 2 = 22/3 := by
    rw [localMedOf, hctx]
    norm_num [trimmed_mean, sortQ, sortBy, insertBy, pyTrunc, List.getD]
  rw [hctx, hmed]
  norm_num [mad, pymedian, sortQ, sortBy, insertBy, List.getD,
    abs_of_nonneg, abs_of_nonpos]

/-- Claim C10: for every series with at least one sample, every baseline,
every threshold factor and every in-range minimum index,
`expand_dip_boundaries` returns an inclusive pair `(start, end)` with
`0 ≤ start ≤ min_idx ≤ end ≤ N - 1`; consequently such a segment satisfies
`detect_dip`'s bounds precondition (it never raises the invalid-argument
`ValueError`), and it contains its minimum. -/
theorem c10_expand_bounds (x : List ℚ) (min_idx : ℕ) (b tf : ℚ) (ops : FloatOps)
    (pw pow mw : ℕ) (k madm : ℚ) (rr : Bool) (n0 : ℤ) (h : min_idx < x.length) :
    (expand_dip_boundaries x min_idx b tf).1 ≤ min_idx ∧
    min_idx ≤ (expand_dip_boundaries x min_idx b tf).2 ∧
    (expand_dip_boundaries x min_idx b tf).2 ≤ x.length - 1 ∧
    errOf (detect_dip ops x ((expand_dip_boundaries x min_idx b tf).1 : ℤ)
      ((expand_dip_boundaries x min_idx b tf).2 : ℤ) pw pow mw k madm rr n0) ≠
      some PyErr.valueError := by
  obtain ⟨h1, h2, h3⟩ := expand_bounds x min_idx b tf h
  refine ⟨h1, h2, by omega, ?_⟩
  intro hc
  have hbad := (detect_core_err_iff ops (madFallbackNp ops) x
    ((expand_dip_boundaries x min_idx b tf).1 : ℤ)
    ((expand_dip_boundaries x min_idx b tf).2 : ℤ) pw pow mw k madm rr n0).mp hc
  rcases hbad with hb1 | hb2 | hb3
  · omega
  · omega
  · omega

theorem c10_expand_bounds_witness :
    (expand_dip_boundaries [3, 1, 2] 1 2 (3/10)).1 ≤ 1 ∧
    1 ≤ (expand_dip_boundaries [3, 1, 2] 1 2 (3/10)).2 ∧
    (expand_dip_boundaries [3, 1, 2] 1 2 (3/10)).2 ≤ ([3, 1, 2] : List ℚ).length - 1 ∧
    errOf (detect_dip ops0 [3, 1, 2] ((expand_dip_boundaries [3, 1, 2] 1 2 (3/10)).1 : ℤ)
      ((expand_dip_boundaries [3, 1, 2] 1 2 (3/10)).2 : ℤ) 50 50 2 (1/4) 0 true 200) ≠
      some PyErr.valueError :=
  c10_expand_bounds [3, 1, 2] 1 2 (3/10) ops0 50 50 2 (1/4) 0 true 200 (by norm_num)

/-- Claim C4 counterexample: on the well-formed series `[5, 1, 5]` with the
option combination `smoothing_window = 0`, `min_prominence_factor = 0`,
`min_width = 1`, `n0 = 0`, `multi_scale = False`, `find_all_dips` detects the
minimum at index 1, expands it to the segment `[1, 1]`, calls `detect_dip` on
it, and the `alpha = 1 - exp(-N / float(n0))` division raises
`ZeroDivisionError` — `find_all_dips` does not return normally for every
option combination.  (`ops1` fixes `sqrt 1 = 1`, the value the real square
root takes at the only point it is evaluated in this run.) -/
theorem c4_cex :
    errOf (find_all_dips ops1 [5, 1, 5] 0 0 none none 1 (1/4) 0 true 0 50 false none) =
      some PyErr.zeroDiv := by
  have htn1 : Int.toNat 1 = 1 := rfl
  have hsm : smoothSeries [5, 1, 5] 1 = [5, 1, 5] := rfl
  have hgm : globalMadOfSmooth [5, 1, 5] = .ok (2/3) := by
    norm_num [globalMadOfSmooth, pymedian, mad, pymax, pymin, sortQ, sortBy, insertBy,
      List.getD, List.foldl, except_pure, abs_of_nonneg, abs_of_nonpos]
  have hmin : find_local_minima [5, 1, 5] 0 0 = [(1, 1, 4)] := by
    norm_num [find_local_minima, scanMinima, minimaAt, plateauEnd, maxScan, descentStart,
      List.getD, List.range', List.foldl, Nat.min_def]
  have hb5 : pymedian (mkContext [5, 1, 5] 3 1 1 1 1 4) = 5 := by
    norm_num [mkContext, pymedian, sortQ, sortBy, insertBy, List.getD]
  have hsq1 : ops1.sqrt (1 : ℚ) = 1 := rfl
  have hcl : crossingLevel [5, 1, 5] 1 5 (3/10) = 19/5 := by
    rw [crossingLevel]
    norm_num [List.getD, min_def]
  have hexp : expand_dip_boundaries [5, 1, 5] 1 5 (3/10) = (1, 1) := by
    rw [expand_dip_boundaries]
    norm_num [hcl, findFirstGe, List.range', List.range, List.getD]
  have hdd : detect_dip ops1 [5, 1, 5] 1 1 1 1 1 (1/4) 0 true 0 = .error .zeroDiv := by
    norm_num [detect_dip, detect_dip_core, htn1]
  have hps : perScaleStep ops1 [5, 1, 5] [5, 1, 5] 3 1 1 1 (1/4) 0 true 0 1 [] (1, 1, 4) =
      .error .zeroDiv := by
    rw [perScaleStep_eq]
    norm_num [hb5, hexp, hdd, hsq1, pyTrunc, Int.floor_one, htn1, except_bind_err,
      Nat.max_def]
  have hper : perScale ops1 [5, 1, 5] 3 1 1 1 0 0 (1/4) 0 true 0 1 = .error .zeroDiv := by
    rw [perScale_eq]
    norm_num [hsm, hgm, hmin, hps, hsq1, except_bind_ok, except_bind_err,
      List.foldlM_cons, List.foldlM_nil, Nat.max_def, Nat.min_def]
  have hss : scaleStep ops1 [5, 1, 5] 3 1 1 1 0 0 (1/4) 0 true 0 [] 1 = .error .zeroDiv := by
    rw [scaleStep_eq, hper]
    rfl
  rw [find_all_dips_eq]
  norm_num [selectScaleFactors, Nat.max_def, Nat.min_def, Option.getD, hss,
    List.foldlM_cons, List.foldlM_nil, except_bind_err, errOf]

/-- Claim C4 (amended): for every well-formed numeric series, `find_all_dips`
returns normally — and returns the empty list when the series is shorter than
`min_width` — provided the options stay clear of the division failures:
`min_width ≥ 1`, `n0 ≠ 0`, a positive depth threshold source
(`min_abs_depth > 0` or `k > 0`, which keeps every kept candidate's depth
positive so the merge's overlap division is safe), and a square root that is
nonzero on the selected scale factors. -/
theorem c4_amended (ops : FloatOps) (x : List ℚ) (sw : ℕ) (mpf : ℚ)
    (pwo powo : Option ℕ) (mw : ℕ) (k madm : ℚ) (rr : Bool) (n0 : ℤ) (md : ℕ)
    (ms : Bool) (sfo : Option (List ℕ))
    (hmw : 1 ≤ mw) (hn0 : n0 ≠ 0) (hth : 0 < madm ∨ 0 < k)
    (hsq : ∀ sf ∈ selectScaleFactors ms sfo x.length, ops.sqrt ((sf : ℕ) : ℚ) ≠ 0) :
    (find_all_dips ops x sw mpf pwo powo mw k madm rr n0 md ms sfo).isOk = true ∧
    (x.length < mw → find_all_dips ops x sw mpf pwo powo mw k madm rr n0 md ms sfo = .ok []) := by
  constructor
  · exact find_all_dips_isOk ops x sw mpf pwo powo mw k madm rr n0 md ms sfo hmw hn0 hth hsq
  · intro hlt
    rw [find_all_dips_eq, if_pos hlt]

theorem c4_amended_witness :
    (find_all_dips ops1 [5] 3 (3/10) none none 2 (1/4) 0 true 200 50 false none).isOk = true ∧
    find_all_dips ops1 [5] 3 (3/10) none none 2 (1/4) 0 true 200 50 false none = .ok [] := by
  have h := c4_amended ops1 [5] 3 (3/10) none none 2 (1/4) 0 true 200 50 false none
    (by norm_num) (by norm_num) (Or.inr (by norm_num))
    (by
      intro sf hsf
      show (1 : ℚ) ≠ 0
      norm_num)
  exact ⟨h.1, h.2 (by norm_num)⟩
